import Mathlib

/-!
# Verification of the MeetingsMapControl route-and-marker consolidation engine

Shallow embedding of the core logic of the latest revision of
`src/AppointmentAzureMapPCF/MapComponent.tsx` and
`src/AppointmentAzureMapPCF/RouteService.ts`:

* address resolution (appointment location field with "regarding" entity fallback),
* the geocoding cache and batch geocoder,
* stop aggregation (grouping by address, chronological ordering, marker indices),
* the route engine (stop filtering, two route caches, leg construction).

JavaScript numbers are modelled as rationals, `Date` instants as integer epoch
milliseconds, JS `Map`s / plain objects as association lists (JS `Map` preserves
insertion order), `async` control flow as explicit state passing, and each
external service (CRM web API, geocoding HTTP endpoint, directions HTTP
endpoint) as an oracle function passed in as a parameter.  A thrown-and-caught
JS exception is an `Except.error` value of the oracle.
-/

namespace MeetingsMap

/-- JS `String.prototype.trim()` modelled structurally (Lean's own
`String.trim` is well-founded recursion, which blocks kernel evaluation):
drop whitespace from both ends. -/
def jsTrim (s : String) : String :=
  ⟨((s.data.dropWhile Char.isWhitespace).reverse.dropWhile Char.isWhitespace).reverse⟩

/-- JS `String.prototype.toLowerCase()` modelled structurally. -/
def jsToLower (s : String) : String :=
  ⟨s.data.map Char.toLower⟩

/-- `atlas.data.Position`: a `[longitude, latitude]` pair. -/
abbrev Position : Type := ℚ × ℚ

/-- The `id` field of a `ComponentFramework.EntityReference`: at runtime it is
either a plain GUID string, an object with a `guid` field, or something else
(the code's final `else return null` branch). -/
inductive RegardingId : Type
  | str (s : String)
  | guidObj (guid : String)
  | other
deriving DecidableEq, Repr

/-- `ComponentFramework.EntityReference` as used by `fetchRegardingAddress`:
an entity type name `etn` and an `id` (absent when `undefined`). -/
structure EntityReference : Type where
  etn : String
  id : Option RegardingId
deriving DecidableEq, Repr

/-- `AppointmentRecord` from `types.ts` (presentation-only fields
`description`, `regardingobjectidname`, `ownerId` are not used by the core
logic and are omitted).  `scheduledstart` / `scheduledend` are epoch
milliseconds (`Date.getTime()`). -/
structure AppointmentRecord : Type where
  id : String
  subject : String
  scheduledstart : ℤ
  scheduledend : ℤ
  location : Option String
  regardingobjectid : Option EntityReference
deriving DecidableEq, Repr

/-! ## CRM collaborator (webAPI) oracle -/

/-- The slice of `context.webAPI.retrieveRecord` behaviour used by
`fetchRegardingAddress`.  `retrieveComposite entityType entityId` returns the
record's `address1_composite` (absent when the column is `null`);
`retrieveOpportunity entityId` returns the expanded
`customerid_account.address1_composite` and
`customerid_contact.address1_composite` columns.  `Except.error` is a thrown
web-API error (caught by the code's `try/catch`). -/
structure CrmOracle : Type where
  retrieveComposite : String → String → Except Unit (Option String)
  retrieveOpportunity : String → Except Unit (Option String × Option String)

/-- JS truthiness of `regardingobjectid?.id`: `undefined`/`null` and the empty
string are falsy; any object (even `\x7bguid: ""\x7d`) is truthy. -/
def idTruthy : Option RegardingId → Bool
  | none => false
  | some (.str s) => !(s == "")
  | some (.guidObj _) => true
  | some .other => true

/-- The `entityId` extraction of `fetchRegardingAddress`: a string id is used
directly, an object id contributes its `guid` field, anything else returns
`null`. -/
def entityIdOf : RegardingId → Option String
  | .str s => some s
  | .guidObj g => some g
  | .other => none

/-- `fetchRegardingAddress` (MapComponent.tsx, revision 3): fetch the
composite address of the appointment's "regarding" entity.  `contact` and
`account` are fetched directly; `opportunity` goes through its customer,
preferring the account's address over the contact's (JS truthiness: an empty
composite string is falsy and falls through); unrecognized entity types,
missing identifiers and thrown lookup errors all give `none`. -/
def fetchRegardingAddress (o : CrmOracle) (regardingobjectid : EntityReference) :
    Option String :=
  if !(idTruthy regardingobjectid.id) || regardingobjectid.etn == "" then none
  else
    let entityType := jsToLower regardingobjectid.etn
    match regardingobjectid.id with
    | none => none
    | some rid =>
      match entityIdOf rid with
      | none => none
      | some entityId =>
        if entityType == "contact" || entityType == "account" then
          match o.retrieveComposite entityType entityId with
          | .ok addr => addr
          | .error _ => none
        else if entityType == "opportunity" then
          match o.retrieveOpportunity entityId with
          | .ok (acct, cont) =>
            match acct with
            | some a => if a == "" then
                (match cont with
                 | some c => if c == "" then none else some c
                 | none => none)
              else some a
            | none =>
              match cont with
              | some c => if c == "" then none else some c
              | none => none
          | .error _ => none
        else none

/-- The body of one `addressPromises` entry in `updateMarkers` (revision 3):
priority 1 is the appointment's own `location` field, trimmed, when non-blank
after trimming; otherwise the regarding entity's address (trimmed, when
non-blank); otherwise `none`. -/
def resolveAppointmentAddress (o : CrmOracle) (appt : AppointmentRecord) :
    Option String :=
  match appt.location with
  | some l =>
    if !(l == "") && !(jsTrim l == "") then some (jsTrim l)
    else resolveFromRegarding o appt
  | none => resolveFromRegarding o appt
where
  /-- The regarding-entity fallback of the same promise body. -/
  resolveFromRegarding (o : CrmOracle) (appt : AppointmentRecord) :
      Option String :=
    match appt.regardingobjectid with
    | some ref =>
      match fetchRegardingAddress o ref with
      | some address => if !(address == "") && !(jsTrim address == "") then some (jsTrim address) else none
      | none => none
    | none => none

/-! ## Geocoding cache and resolver -/

/-- `Map.prototype.get` on a string-keyed JS `Map` modelled as an
insertion-ordered association list. -/
def jsMapGet {α : Type} (m : List (String × α)) (key : String) : Option α :=
  (m.find? (fun e => e.1 == key)).map (·.2)

/-- `Map.prototype.set`: overwrite in place or append a fresh key. -/
def jsMapSet {α : Type} (m : List (String × α)) (key : String) (v : α) :
    List (String × α) :=
  match m with
  | [] => [(key, v)]
  | e :: rest => if e.1 == key then (key, v) :: rest else e :: jsMapSet rest key v

/-- `Map.prototype.delete`. -/
def jsMapDelete {α : Type} (m : List (String × α)) (key : String) :
    List (String × α) :=
  match m with
  | [] => []
  | e :: rest => if e.1 == key then rest else e :: jsMapDelete rest key


/-- `GeocodeCache = Record<string, atlas.data.Position | null>`: an
insertion-ordered association list from normalized address to the geocoded
position or the cached `null` ("not found") marker; a key that is absent
models `undefined`. -/
abbrev GeocodeCache : Type := List (String × Option Position)

/-- One outcome of the geocoding HTTP endpoint for a given query.  `ok results`
is a 200 response whose parsed body has the given `results` array, each element
being `some (lon, lat)` when its `position` field holds numeric `lon`/`lat` and
`none` when the position payload is malformed or missing; `ok []` also covers a
body with an absent/empty `results` array.  `failure` is a non-ok HTTP status,
a network error or a JSON parse error (all thrown and caught, with a name other
than AbortError); `aborted` is a caller-initiated cancellation (AbortError). -/
inductive GeoFetchOutcome : Type
  | ok (results : List (Option Position))
  | failure
  | aborted
deriving DecidableEq, Repr

/-- The result of one `geocodeAddress` call: the returned value, the cache
afterwards, and whether a network request was issued (`fetch` reached). -/
structure GeocodeCallResult : Type where
  position : Option Position
  cache : GeocodeCache
  requestMade : Bool
deriving DecidableEq, Repr

/-- `geocodeAddress` (MapComponent.tsx, revision 3).  Blank input returns
`null` immediately (no lookup, no request, no cache write).  A cached value —
including a cached `null` — is returned with no request.  Otherwise one request
is issued to the geocoding oracle: a well-formed first result is cached and
returned; an empty result list or malformed first result caches `null`; a
thrown non-abort error caches `null`; an AbortError caches nothing.  In all
non-cached failure shapes the call returns `null`. -/
def geocodeAddress (cache : GeocodeCache) (address : String)
    (oracle : String → GeoFetchOutcome) : GeocodeCallResult :=
  if address == "" || jsTrim address == "" then
    { position := none, cache := cache, requestMade := false }
  else
    let normalizedAddress := jsToLower (jsTrim address)
    match jsMapGet cache normalizedAddress with
    | some v => { position := v, cache := cache, requestMade := false }
    | none =>
      match oracle address with
      | .ok results =>
        match results with
        | some pos :: _ =>
          { position := some pos
            cache := jsMapSet cache normalizedAddress (some pos)
            requestMade := true }
        | _ =>
          { position := none
            cache := jsMapSet cache normalizedAddress none
            requestMade := true }
      | .failure =>
        { position := none
          cache := jsMapSet cache normalizedAddress none
          requestMade := true }
      | .aborted =>
        { position := none, cache := cache, requestMade := true }

/-- `batchSize` constant of `batchGeocodeAddresses`. -/
def batchSize : ℕ := 10

/-- `delayMs` constant of `batchGeocodeAddresses`. -/
def delayMs : ℕ := 50

/-- One observable event of a `batchGeocodeAddresses` run: a batch of
addresses issued concurrently via `Promise.all`, or the fixed inter-batch
`setTimeout` delay. -/
inductive BatchEvent : Type
  | batch (addresses : List String)
  | delay (ms : ℕ)
deriving DecidableEq, Repr

/-- The result of one `batchGeocodeAddresses` call: the returned
address → position `Map` (association list in insertion order), the geocode
cache afterwards, and the trace of batch/delay events in order. -/
structure BatchGeocodeResult : Type where
  results : List (String × Option Position)
  cache : GeocodeCache
  trace : List BatchEvent
deriving DecidableEq, Repr

/-- Process one batch: the `Promise.all` over `batch.map(geocodeAddress)`.
The requests run concurrently in the source; each sets its own key of the
result `Map`, so the resulting map does not depend on completion order, and
the model runs them in list order. -/
def processBatch (cache : GeocodeCache) (oracle : String → GeoFetchOutcome)
    (batch : List String) (acc : List (String × Option Position)) :
    List (String × Option Position) × GeocodeCache :=
  match batch with
  | [] => (acc, cache)
  | address :: rest =>
    let r := geocodeAddress cache address oracle
    processBatch r.cache oracle rest (jsMapSet acc address r.position)

/-- The `for` loop of `batchGeocodeAddresses`.  `k` is the 0-based index of
the next batch; `aborted k` is the value of
`abortControllerRef.current?.signal.aborted` observed at the check before
batch `k`.  The loop breaks when the signal is aborted, takes the next
`batchSize` addresses otherwise, and sleeps `delayMs` when further addresses
remain. -/
def batchLoop (oracle : String → GeoFetchOutcome) (aborted : ℕ → Bool)
    (k : ℕ) (cache : GeocodeCache) (acc : List (String × Option Position))
    (remaining : List String) : BatchGeocodeResult :=
  match remaining with
  | [] => { results := acc, cache := cache, trace := [] }
  | a₀ :: more =>
    if aborted k then { results := acc, cache := cache, trace := [] }
    else
      let batch := (a₀ :: more).take batchSize
      let (acc', cache') := processBatch cache oracle batch acc
      let rest := (a₀ :: more).drop batchSize
      let tail := batchLoop oracle aborted (k + 1) cache' acc' rest
      { results := tail.results
        cache := tail.cache
        trace := .batch batch ::
          (if rest.isEmpty then tail.trace else .delay delayMs :: tail.trace) }
  termination_by remaining.length
  decreasing_by
    simp only [List.length_drop, batchSize, List.length_cons]
    omega

/-- `batchGeocodeAddresses` (MapComponent.tsx, revision 3). -/
def batchGeocodeAddresses (cache : GeocodeCache)
    (addresses : List String) (oracle : String → GeoFetchOutcome)
    (aborted : ℕ → Bool) : BatchGeocodeResult :=
  batchLoop oracle aborted 0 cache [] addresses

/-! ## Stop aggregation (`updateMarkers`, revision 3) -/

/-- `RoutePoint` from RouteService.ts. -/
structure RoutePoint : Type where
  position : Position
  address : String
  appointmentId : String
  subject : String
  scheduledstart : ℤ
deriving DecidableEq, Repr

/-- The `addressMap` insertion step: `addressMap.get(key)!.push(appt)` after
`if (!addressMap.has(key)) addressMap.set(key, [])`.  JS `Map` preserves
insertion order, so a fresh key is appended at the end and an existing key's
group grows in place. -/
def addToAddressMap (m : List (String × List AppointmentRecord)) (key : String)
    (appt : AppointmentRecord) : List (String × List AppointmentRecord) :=
  match m with
  | [] => [(key, [appt])]
  | e :: rest =>
    if e.1 == key then (e.1, e.2 ++ [appt]) :: rest
    else e :: addToAddressMap rest key appt

/-- The `addressMap` construction loop of `updateMarkers`: each non-null
address-resolution result with a non-blank address contributes its
appointment to the group of its trimmed address. -/
def buildAddressMap (addressResults : List (Option (AppointmentRecord × String))) :
    List (String × List AppointmentRecord) :=
  addressResults.foldl
    (fun m r =>
      match r with
      | some (appt, address) =>
        if !(address == "") && !(jsTrim address == "") then
          addToAddressMap m (jsTrim address) appt
        else m
      | none => m)
    []

/-- `addressMap.get(a)` lookup. -/
def addressMapGet (m : List (String × List AppointmentRecord)) (key : String) :
    Option (List AppointmentRecord) :=
  jsMapGet m key

/-- The key used by the `sortedAddresses` comparator:
`addressMap.get(a)?.[0].scheduledstart.getTime()`.  The comparator returns 0
when a group is missing or empty; such keys never occur (every key of
`addressMap` has a non-empty group), and the model gives them key 0. -/
def groupSortKey (m : List (String × List AppointmentRecord)) (a : String) : ℤ :=
  match addressMapGet m a with
  | some (appt :: _) => appt.scheduledstart
  | _ => 0

/-- `sortedAddresses`: `uniqueAddresses.sort(comparator)` where the comparator
subtracts the groups' first appointments' start times.  `Array.prototype.sort`
is stable (ES2019), which the stable `List.insertionSort` models. -/
def sortedAddresses (m : List (String × List AppointmentRecord)) : List String :=
  (m.map (·.1)).insertionSort (fun a b => groupSortKey m a ≤ groupSortKey m b)

/-- One rendered marker of the `markerCount` loop: its 1-based label
(`markerCount.toString()` is its text), its address and its appointment group. -/
structure MarkerData : Type where
  markerCount : ℕ
  address : String
  appointments : List AppointmentRecord
deriving DecidableEq, Repr

/-- The `markerCount` loop of `updateMarkers`: walk `sortedAddresses`, skip
addresses without a geocoded position or without a group, and give each
remaining address the next sequential 1-based `markerCount`.  `geocodeMap`
models the `Map` built from the successfully geocoded unique addresses.
Returns the markers and the `routePoints` array. -/
def markerLoop (m : List (String × List AppointmentRecord))
    (geocodeMap : String → Option Position) (count : ℕ) :
    List String → List MarkerData × List RoutePoint
  | [] => ([], [])
  | address :: rest =>
    match geocodeMap address, addressMapGet m address with
    | some position, some (a₀ :: appts) =>
      let (ms, rps) := markerLoop m geocodeMap (count + 1) rest
      ({ markerCount := count + 1, address := address,
         appointments := a₀ :: appts } :: ms,
       { position := position, address := address, appointmentId := a₀.id,
         subject := a₀.subject, scheduledstart := a₀.scheduledstart } :: rps)
    | _, _ => markerLoop m geocodeMap count rest

/-- The aggregation pipeline of `updateMarkers` after address resolution:
group by trimmed address, sort the unique addresses, and run the marker
loop. -/
def aggregateStops (addressResults : List (Option (AppointmentRecord × String)))
    (geocodeMap : String → Option Position) :
    List MarkerData × List RoutePoint :=
  let m := buildAddressMap addressResults
  markerLoop m geocodeMap 0 (sortedAddresses m)

/-! ## Route engine (RouteService.ts and `calculateAndDisplayRoute`) -/

/-- `RouteLeg` from RouteService.ts (whose `from`/`to` fields are spelled
`fromLabel`/`toLabel` here because `from` is a Lean keyword). -/
structure RouteLeg : Type where
  fromLabel : String
  toLabel : String
  distance : ℚ
  duration : ℚ
  summary : String
deriving DecidableEq, Repr

/-- `RouteResult` from RouteService.ts. -/
structure RouteResult : Type where
  routeCoordinates : List Position
  totalDistance : ℚ
  totalDuration : ℚ
  routeLegs : List RouteLeg
deriving DecidableEq, Repr

/-- `RouteApiLegSummary` / `RouteApiSummary` from RouteService.ts. -/
structure RouteApiSummary : Type where
  lengthInMeters : ℚ
  travelTimeInSeconds : ℚ
deriving DecidableEq, Repr

/-- `RouteApiLeg` from RouteService.ts (`points` already as positions). -/
structure RouteApiLeg : Type where
  summary : RouteApiSummary
  points : List Position
deriving DecidableEq, Repr

/-- `RouteApiRoute` from RouteService.ts. -/
structure RouteApiRoute : Type where
  legs : List RouteApiLeg
  summary : RouteApiSummary
deriving DecidableEq, Repr

/-- One outcome of the directions HTTP endpoint.  `ok routes?` is a 200
response: `routes? = none` models a parsed body without a `routes` array
(`routeData?.routes` undefined), `routes? = some rs` a body with array `rs`.
`err` is a non-ok status or network/parse error (thrown, then caught by
`calculateChronologicalRoute`). -/
inductive RouteApiOutcome : Type
  | ok (routes? : Option (List RouteApiRoute))
  | err
deriving Repr

/-- `formatRouteSummary`: `"<miles> mi • <h>h <m>m"`.  JS float formatting
(`toFixed(1)`) is abstracted by exact-rational rendering of the value rounded
to one decimal place; the claims do not depend on the rendering. -/
def formatRouteSummary (distanceInMeters durationInSeconds : ℚ) : String :=
  let distanceInMiles : ℚ := distanceInMeters * (621371 / 1000000000)
  let rounded : ℚ := (distanceInMiles * 10).floor / 10
  let hours : ℤ := (durationInSeconds / 3600).floor
  let minutes : ℤ := ((durationInSeconds - hours * 3600) / 60).floor
  let durationStr := if hours > 0 then s!"{hours}h {minutes}m" else s!"{minutes}m"
  s!"{rounded} mi • {durationStr}"

/-- The label JS gives a route point: `point.subject || point.address ||
fallback` (empty strings are falsy). -/
def pointLabel (p : RoutePoint) (fallback : String) : String :=
  if !(p.subject == "") then p.subject
  else if !(p.address == "") then p.address
  else fallback

/-- The `for` loop of `buildRouteLegDetails` from index 1 on.  `i` is the leg
index; `legs` holds the remaining API legs (`legs[i..]`).  Array indexing
`sortedPoints[i-1]` / `sortedPoints[i]` is total in JS but yields `undefined`
out of bounds and the subsequent `.subject` access throws; the model returns
`none` in that case. -/
def buildLegsFrom (sortedPoints : List RoutePoint) :
    ℕ → List RouteApiLeg → Option (List RouteLeg)
  | _, [] => some []
  | i, leg :: rest => do
    let fromPoint ← sortedPoints.get? (i - 1)
    let toPoint ← sortedPoints.get? i
    let tail ← buildLegsFrom sortedPoints (i + 1) rest
    pure ({ fromLabel := pointLabel fromPoint s!"Stop {i}"
            toLabel := pointLabel toPoint s!"Stop {i + 1}"
            distance := leg.summary.lengthInMeters
            duration := leg.summary.travelTimeInSeconds
            summary := formatRouteSummary leg.summary.lengthInMeters
              leg.summary.travelTimeInSeconds } :: tail)

/-- `buildRouteLegDetails` (RouteService.ts): leg 0 goes from "Your Location"
to the first sorted point's label with fallback "First Appointment"; leg
`i ≥ 1` goes from point `i-1`'s label (fallback `"Stop i"`) to point `i`'s
label (fallback `"Stop i+1"`).  `none` models the TypeError thrown when an
out-of-bounds point is dereferenced. -/
def buildRouteLegDetails (sortedPoints : List RoutePoint)
    (legs : List RouteApiLeg) : Option (List RouteLeg) :=
  match legs with
  | [] => some []
  | leg0 :: rest => do
    let firstPoint ← sortedPoints.get? 0
    let tail ← buildLegsFrom sortedPoints 1 rest
    pure ({ fromLabel := "Your Location"
            toLabel := pointLabel firstPoint "First Appointment"
            distance := leg0.summary.lengthInMeters
            duration := leg0.summary.travelTimeInSeconds
            summary := formatRouteSummary leg0.summary.lengthInMeters
              leg0.summary.travelTimeInSeconds } :: tail)

/-- `extractRouteCoordinates`: concatenate all legs' point sequences. -/
def extractRouteCoordinates (legs : List RouteApiLeg) : List Position :=
  legs.flatMap (·.points)

/-- `buildRouteResult` (RouteService.ts), total over the leg construction. -/
def buildRouteResult (sortedPoints : List RoutePoint)
    (firstRoute : RouteApiRoute) : Option RouteResult := do
  let routeLegs ← buildRouteLegDetails sortedPoints firstRoute.legs
  pure { routeCoordinates := extractRouteCoordinates firstRoute.legs
         totalDistance := firstRoute.summary.lengthInMeters
         totalDuration := firstRoute.summary.travelTimeInSeconds
         routeLegs := routeLegs }

/-- The `cache` of `AzureMapsRouteService`: key → `(result, timestamp)`. -/
abbrev RouteServiceCache : Type := List (String × RouteResult × ℤ)

/-- `cacheTTL` of `AzureMapsRouteService`: 5 minutes in milliseconds. -/
def cacheTTL : ℤ := 5 * 60 * 1000

/-- `generateCacheKey` (RouteService.ts): start coordinates, a dash, then the
comma-joined appointment ids of the (sorted) points.  Note: the key does not
mention the stop coordinates. -/
def generateCacheKey (start : Position) (points : List RoutePoint) : String :=
  toString start.1 ++ "," ++ toString start.2 ++ "-" ++
    String.intercalate "," (points.map (·.appointmentId))

/-- `getValidCacheEntry` (RouteService.ts): a missing key is a miss; an entry
older than `cacheTTL` is deleted and reported as a miss; otherwise the cached
result is returned.  The function mutates the cache (the expired-entry
deletion), so the model returns the cache afterwards as well. -/
def getValidCacheEntry (now : ℤ) (cache : RouteServiceCache) (key : String) :
    Option RouteResult × RouteServiceCache :=
  match jsMapGet cache key with
  | none => (none, cache)
  | some (result, timestamp) =>
    if now - timestamp > cacheTTL then (none, jsMapDelete cache key)
    else (some result, cache)

/-- The sort applied by `calculateChronologicalRoute` to its input points
(`[...routePoints].sort(...)`, a stable sort by `scheduledstart`). -/
def sortPointsChronologically (routePoints : List RoutePoint) : List RoutePoint :=
  routePoints.insertionSort (fun a b => a.scheduledstart ≤ b.scheduledstart)

/-- The result of one `calculateChronologicalRoute` call: the returned value,
the service cache afterwards, and whether a request was issued to the
directions endpoint (`getRoute` reached). -/
structure ChronoRouteOutcome : Type where
  result : Option RouteResult
  cache : RouteServiceCache
  apiRequested : Bool
deriving Repr

/-- `calculateChronologicalRoute` (RouteService.ts).  `startPosition` has a
non-nullable type, so the JS `!startPosition` guard is vacuous in the model;
empty `routePoints` return `null`.  The points are stably sorted by
`scheduledstart`, the cache is consulted under `generateCacheKey`, and on a
miss one directions request is made: a body without routes or with an empty
route list gives `null`; a thrown error is caught and gives `null`; a
successfully built result is cached with the current timestamp and returned.
A TypeError thrown inside `buildRouteResult` (out-of-bounds point access,
modelled by its `none`) is caught by the same `catch` and gives `null`
without caching. -/
def calculateChronologicalRoute (now : ℤ) (cache : RouteServiceCache)
    (startPosition : Position) (routePoints : List RoutePoint)
    (api : List Position → RouteApiOutcome) : ChronoRouteOutcome :=
  if routePoints.isEmpty then
    { result := none, cache := cache, apiRequested := false }
  else
    let sortedPoints := sortPointsChronologically routePoints
    let cacheKey := generateCacheKey startPosition sortedPoints
    let (cached, cache') := getValidCacheEntry now cache cacheKey
    match cached with
    | some r => { result := some r, cache := cache', apiRequested := false }
    | none =>
      let waypoints := startPosition :: sortedPoints.map (·.position)
      match api waypoints with
      | .err => { result := none, cache := cache', apiRequested := true }
      | .ok none => { result := none, cache := cache', apiRequested := true }
      | .ok (some []) => { result := none, cache := cache', apiRequested := true }
      | .ok (some (firstRoute :: _)) =>
        match buildRouteResult sortedPoints firstRoute with
        | none => { result := none, cache := cache', apiRequested := true }
        | some result =>
          { result := some result
            cache := jsMapSet cache' cacheKey (result, now)
            apiRequested := true }

/-! ## `calculateAndDisplayRoute` and the component-level route cache -/

/-- `DISTANCE_THRESHOLD = 0.0001` degrees (~10 meters). -/
def DISTANCE_THRESHOLD : ℚ := 1 / 10000

/-- `ROUTE_CACHE_DURATION = 5 * 60 * 1000` milliseconds. -/
def ROUTE_CACHE_DURATION : ℤ := 5 * 60 * 1000

/-- The squared distance `dx*dx + dy*dy` of `calculateDistance`.  The source
returns `Math.sqrt` of this; the model keeps the square and compares against
the squared threshold, which is equivalent because `Real.sqrt` is strictly
monotone on nonnegatives (`positionsAreEqual_iff_sqrt` below). -/
def calculateDistanceSq (pos1 pos2 : Position) : ℚ :=
  let dx := pos1.1 - pos2.1
  let dy := pos1.2 - pos2.2
  dx * dx + dy * dy

/-- `positionsAreEqual`: `calculateDistance(pos1, pos2) < DISTANCE_THRESHOLD`. -/
def positionsAreEqual (pos1 pos2 : Position) : Bool :=
  decide (calculateDistanceSq pos1 pos2 < DISTANCE_THRESHOLD * DISTANCE_THRESHOLD)

/-- The component-level `routeCacheRef` (`Map<string, CachedRoute>`):
key → `(result, timestamp)`. -/
abbrev ComponentRouteCache : Type := List (String × RouteResult × ℤ)

/-- `getCacheKey` (MapComponent.tsx, revision 3):
`JSON.stringify([startPos, points.map(p => p.position)])`.  JS number
formatting is abstracted by exact-rational rendering; the key is a
serialization of the start coordinate and the ordered stop coordinates and of
nothing else. -/
def jsonPos (p : Position) : String :=
  "[" ++ toString p.1 ++ "," ++ toString p.2 ++ "]"

def getCacheKey (startPos : Position) (points : List RoutePoint) : String :=
  "[" ++ jsonPos startPos ++ ",[" ++
    String.intercalate "," (points.map (fun p => jsonPos p.position)) ++ "]]"

/-- The mutable state touched by `calculateAndDisplayRoute`: the
component-level route cache and the `AzureMapsRouteService` cache. -/
structure RoutePassState : Type where
  routeCache : ComponentRouteCache
  serviceCache : RouteServiceCache
deriving Repr

/-- The result of one `calculateAndDisplayRoute` call: the final `routeData`
state (also what `displayRouteOnMap` drew, `none` for a cleared route layer),
the caches afterwards, whether `routeServiceRef.current.
calculateChronologicalRoute` was invoked at all, and whether a directions
request was issued. -/
structure CalcDisplayOutcome : Type where
  routeData : Option RouteResult
  state : RoutePassState
  serviceInvoked : Bool
  apiRequested : Bool
deriving Repr

/-- The stop filter of `calculateAndDisplayRoute`: drop every point whose
position is within `DISTANCE_THRESHOLD` of the start position. -/
def filterRoutePoints (startPosition : Position) (routePoints : List RoutePoint) :
    List RoutePoint :=
  routePoints.filter (fun point => !(positionsAreEqual point.position startPosition))

/-- `calculateAndDisplayRoute` (MapComponent.tsx, revision 3).  Stops near the
start are filtered out; if none remain the route data is cleared and nothing
else happens.  Otherwise the component-level cache is consulted under
`getCacheKey`: an entry younger than `ROUTE_CACHE_DURATION` is displayed
as-is; otherwise the route service is invoked and a returned result with a
non-empty coordinate list is cached (with the current timestamp) and
displayed, while `null`/empty results clear the route. -/
def calculateAndDisplayRoute (now : ℤ) (st : RoutePassState)
    (startPosition : Position) (routePoints : List RoutePoint)
    (api : List Position → RouteApiOutcome) : CalcDisplayOutcome :=
  let filteredPoints := filterRoutePoints startPosition routePoints
  if filteredPoints.isEmpty then
    { routeData := none, state := st, serviceInvoked := false, apiRequested := false }
  else
    let cacheKey := getCacheKey startPosition filteredPoints
    let hit : Option RouteResult :=
      match jsMapGet st.routeCache cacheKey with
      | some (result, timestamp) =>
        if now - timestamp < ROUTE_CACHE_DURATION then some result else none
      | none => none
    match hit with
    | some result =>
      { routeData := some result, state := st
        serviceInvoked := false, apiRequested := false }
    | none =>
      let inner := calculateChronologicalRoute now st.serviceCache startPosition
        filteredPoints api
      match inner.result with
      | some result =>
        if result.routeCoordinates.isEmpty then
          { routeData := none
            state := { routeCache := st.routeCache, serviceCache := inner.cache }
            serviceInvoked := true, apiRequested := inner.apiRequested }
        else
          { routeData := some result
            state := { routeCache := jsMapSet st.routeCache cacheKey (result, now)
                       serviceCache := inner.cache }
            serviceInvoked := true, apiRequested := inner.apiRequested }
      | none =>
        { routeData := none
          state := { routeCache := st.routeCache, serviceCache := inner.cache }
          serviceInvoked := true, apiRequested := inner.apiRequested }

/-! ## Association-list lemmas -/

theorem jsMapGet_nil {α : Type} (k : String) : jsMapGet ([] : List (String × α)) k = none :=
  rfl

theorem jsMapGet_cons {α : Type} (e : String × α) (m : List (String × α)) (k : String) :
    jsMapGet (e :: m) k = if e.1 = k then some e.2 else jsMapGet m k := by
  by_cases h : e.1 = k
  · rw [if_pos h]
    unfold jsMapGet
    rw [List.find?_cons_of_pos _ (by simpa using h)]
    rfl
  · rw [if_neg h]
    unfold jsMapGet
    rw [List.find?_cons_of_neg _ (by simpa using h)]

theorem jsMapGet_set_self {α : Type} (m : List (String × α)) (k : String) (v : α) :
    jsMapGet (jsMapSet m k v) k = some v := by
  induction m with
  | nil => simp [jsMapSet, jsMapGet_cons]
  | cons e rest ih =>
    rw [jsMapSet]
    by_cases h : e.1 = k
    · rw [if_pos (by simpa using h), jsMapGet_cons, if_pos rfl]
    · rw [if_neg (by simpa using h), jsMapGet_cons, if_neg h]
      exact ih

theorem jsMapGet_set_ne {α : Type} (m : List (String × α)) (k k' : String) (v : α)
    (h : k' ≠ k) : jsMapGet (jsMapSet m k v) k' = jsMapGet m k' := by
  induction m with
  | nil => simp [jsMapSet, jsMapGet_cons, jsMapGet_nil, Ne.symm h]
  | cons e rest ih =>
    rw [jsMapSet]
    by_cases he : e.1 = k
    · rw [if_pos (by simpa using he), jsMapGet_cons, jsMapGet_cons,
        if_neg (Ne.symm h), if_neg (by rw [he]; exact Ne.symm h)]
    · rw [if_neg (by simpa using he), jsMapGet_cons, jsMapGet_cons]
      by_cases hek : e.1 = k'
      · rw [if_pos hek, if_pos hek]
      · rw [if_neg hek, if_neg hek]
        exact ih

/-- `positionsAreEqual` agrees with the source's
`Math.sqrt(dx*dx + dy*dy) < DISTANCE_THRESHOLD`: comparing the squared
distance against the squared threshold is the same test because `Real.sqrt`
is strictly monotone. -/
theorem positionsAreEqual_iff_sqrt (pos1 pos2 : Position) :
    positionsAreEqual pos1 pos2 = true ↔
      Real.sqrt ((calculateDistanceSq pos1 pos2 : ℚ)) < ((DISTANCE_THRESHOLD : ℚ) : ℝ) := by
  have hthr : (0 : ℝ) < ((DISTANCE_THRESHOLD : ℚ) : ℝ) := by
    norm_num [DISTANCE_THRESHOLD]
  rw [Real.sqrt_lt' hthr]
  unfold positionsAreEqual
  rw [decide_eq_true_eq]
  constructor
  · intro h
    calc ((calculateDistanceSq pos1 pos2 : ℚ) : ℝ)
        < ((DISTANCE_THRESHOLD * DISTANCE_THRESHOLD : ℚ) : ℝ) := by exact_mod_cast h
      _ = ((DISTANCE_THRESHOLD : ℚ) : ℝ) ^ 2 := by push_cast; ring
  · intro h
    have : ((calculateDistanceSq pos1 pos2 : ℚ) : ℝ) <
        ((DISTANCE_THRESHOLD * DISTANCE_THRESHOLD : ℚ) : ℝ) := by
      calc ((calculateDistanceSq pos1 pos2 : ℚ) : ℝ)
          < ((DISTANCE_THRESHOLD : ℚ) : ℝ) ^ 2 := h
        _ = ((DISTANCE_THRESHOLD * DISTANCE_THRESHOLD : ℚ) : ℝ) := by push_cast; ring
    exact_mod_cast this

/-- C4.  Before route computation, every stop whose coordinate lies within
`DISTANCE_THRESHOLD` (0.0001 degrees, about 10 meters) of the start position
is excluded from the filtered stop list, and if no stops survive the filter
then `calculateAndDisplayRoute` clears the route data (`None`) and returns
without invoking the route service or the external directions endpoint, and
without touching either route cache. -/
theorem claim_C4 (now : ℤ) (st : RoutePassState) (startPosition : Position)
    (routePoints : List RoutePoint) (api : List Position → RouteApiOutcome) :
    (∀ p ∈ routePoints,
      calculateDistanceSq p.position startPosition <
        DISTANCE_THRESHOLD * DISTANCE_THRESHOLD →
      p ∉ filterRoutePoints startPosition routePoints) ∧
    (filterRoutePoints startPosition routePoints = [] →
      calculateAndDisplayRoute now st startPosition routePoints api =
        { routeData := none, state := st, serviceInvoked := false,
          apiRequested := false }) := by
  constructor
  · intro p _ hclose hmem
    have hfilter := (List.mem_filter.mp hmem).2
    rw [Bool.not_eq_eq_eq_not, Bool.not_true] at hfilter
    unfold positionsAreEqual at hfilter
    rw [decide_eq_false_iff_not] at hfilter
    exact hfilter hclose
  · intro h
    unfold calculateAndDisplayRoute
    rw [h]
    rfl

/-- Witness for C4 at a concrete input: a single stop 1/20000 of a degree east
of the start is dropped, and the route computation short-circuits. -/
theorem claim_C4_witness :
    (({ position := (1 / 20000, 0), address := "A", appointmentId := "1",
        subject := "s", scheduledstart := 0 } : RoutePoint) ∉
      filterRoutePoints (0, 0)
        [{ position := (1 / 20000, 0), address := "A", appointmentId := "1",
           subject := "s", scheduledstart := 0 }]) ∧
    calculateAndDisplayRoute 0 { routeCache := [], serviceCache := [] } (0, 0)
        [{ position := (1 / 20000, 0), address := "A", appointmentId := "1",
           subject := "s", scheduledstart := 0 }] (fun _ => .err) =
      { routeData := none, state := { routeCache := [], serviceCache := [] },
        serviceInvoked := false, apiRequested := false } := by
  have h := claim_C4 0 { routeCache := [], serviceCache := [] } (0, 0)
    [{ position := (1 / 20000, 0), address := "A", appointmentId := "1",
       subject := "s", scheduledstart := 0 }] (fun _ => .err)
  have hclose : calculateDistanceSq ((1 / 20000 : ℚ), (0 : ℚ)) (0, 0) <
      DISTANCE_THRESHOLD * DISTANCE_THRESHOLD := by
    norm_num [calculateDistanceSq, DISTANCE_THRESHOLD]
  have hpe : positionsAreEqual ((1 / 20000 : ℚ), (0 : ℚ)) (0, 0) = true := by
    unfold positionsAreEqual
    rw [decide_eq_true_eq]
    exact hclose
  refine ⟨h.1 _ (by simp) hclose, h.2 ?_⟩
  unfold filterRoutePoints
  simp only [List.filter_cons, List.filter_nil]
  rw [hpe]
  rfl

theorem get?_isSome_iff {α : Type} (l : List α) (n : ℕ) :
    (l.get? n).isSome = true ↔ n < l.length := by
  rcases Nat.lt_or_ge n l.length with h | h
  · simp [List.get?_eq_get h, h]
  · rw [List.get?_eq_none.mpr h]
    simp
    omega

theorem buildLegsFrom_isSome (sortedPoints : List RoutePoint) :
    ∀ (legs : List RouteApiLeg) (i : ℕ), 1 ≤ i →
      ((buildLegsFrom sortedPoints i legs).isSome = true ↔
        (legs = [] ∨ i + legs.length ≤ sortedPoints.length)) := by
  intro legs
  induction legs with
  | nil => intro i _; simp [buildLegsFrom]
  | cons leg rest ih =>
    intro i hi
    rw [buildLegsFrom]
    constructor
    · intro h
      right
      rcases Option.isSome_iff_exists.mp h with ⟨L, hL⟩
      simp only [Option.bind_eq_bind, Option.bind_eq_some] at hL
      rcases hL with ⟨fp, hfp, tp, htp, tail, htail, _⟩
      have hib : i < sortedPoints.length := by
        have := (get?_isSome_iff sortedPoints i).mp (by rw [htp]; rfl)
        exact this
      rcases List.eq_nil_or_concat rest with hrest | _
      · subst hrest
        simpa using hib
      · have htailsome : (buildLegsFrom sortedPoints (i + 1) rest).isSome = true := by
          rw [htail]; rfl
        have := ((ih (i + 1) (by omega)).mp htailsome)
        rcases this with hnil | hlen
        · subst hnil
          simpa using hib
        · simp only [List.length_cons]
          omega
    · intro h
      rcases h with h | h
      · exact absurd h (by simp)
      · simp only [List.length_cons] at h
        have hfp : (sortedPoints.get? (i - 1)).isSome = true :=
          (get?_isSome_iff _ _).mpr (by omega)
      -- the bind chain is some as soon as each lookup and the tail are some
        have htp : (sortedPoints.get? i).isSome = true :=
          (get?_isSome_iff _ _).mpr (by omega)
        have htail : (buildLegsFrom sortedPoints (i + 1) rest).isSome = true :=
          (ih (i + 1) (by omega)).mpr (by right; omega)
        rcases Option.isSome_iff_exists.mp hfp with ⟨fp, hfp'⟩
        rcases Option.isSome_iff_exists.mp htp with ⟨tp, htp'⟩
        rcases Option.isSome_iff_exists.mp htail with ⟨tail, htail'⟩
        rw [List.get?_eq_getElem?] at hfp' htp'
        simp [hfp', htp', htail']

/-- C10.  In the total embedding, `buildRouteLegDetails` dereferences
`sortedPoints[0]` when the API leg list is non-empty and `sortedPoints[i-1]`,
`sortedPoints[i]` for every further leg, with no bounds check; the `none`
branch of these `Option`-returning lookups is unreachable exactly when the
response has at most one leg per route point (`legs.length ≤
sortedPoints.length`) and `sortedPoints` is non-empty whenever `legs` is. -/
theorem claim_C10 (sortedPoints : List RoutePoint) (legs : List RouteApiLeg) :
    (buildRouteLegDetails sortedPoints legs).isSome = true ↔
      (legs.length ≤ sortedPoints.length ∧ (legs ≠ [] → sortedPoints ≠ [])) := by
  cases legs with
  | nil => simp [buildRouteLegDetails]
  | cons leg0 rest =>
    rw [buildRouteLegDetails]
    constructor
    · intro h
      rcases Option.isSome_iff_exists.mp h with ⟨L, hL⟩
      simp only [Option.bind_eq_bind, Option.bind_eq_some] at hL
      rcases hL with ⟨fp, hfp, tail, htail, _⟩
      have h0 : 0 < sortedPoints.length :=
        (get?_isSome_iff sortedPoints 0).mp (by rw [hfp]; rfl)
      have htailsome : (buildLegsFrom sortedPoints 1 rest).isSome = true := by
        rw [htail]; rfl
      have := (buildLegsFrom_isSome sortedPoints rest 1 le_rfl).mp htailsome
      constructor
      · rcases this with hnil | hlen
        · subst hnil; simpa using h0
        · simp only [List.length_cons]; omega
      · intro _
        exact List.ne_nil_of_length_pos h0
    · rintro ⟨hlen, hne⟩
      simp only [List.length_cons] at hlen
      have h0 : 0 < sortedPoints.length := by omega
      have hfp : (sortedPoints.get? 0).isSome = true :=
        (get?_isSome_iff _ _).mpr h0
      have htail : (buildLegsFrom sortedPoints 1 rest).isSome = true :=
        (buildLegsFrom_isSome sortedPoints rest 1 le_rfl).mpr (by right; omega)
      rcases Option.isSome_iff_exists.mp hfp with ⟨fp, hfp'⟩
      rcases Option.isSome_iff_exists.mp htail with ⟨tail, htail'⟩
      rw [List.get?_eq_getElem?] at hfp'
      simp [hfp', htail']

/-- C7.  `geocodeAddress` updates the cache exactly when a lookup was
attempted and not cancelled: a blank address returns NotFound immediately
with no request and no cache write; on a miss, a well-formed first result is
cached and returned, an empty result list or malformed first result caches
NotFound, a thrown non-abort failure caches NotFound, and an AbortError
caches nothing and returns NotFound for this invocation only. -/
theorem claim_C7 (cache : GeocodeCache) (address : String)
    (oracle : String → GeoFetchOutcome) :
    (jsTrim address = "" →
      geocodeAddress cache address oracle =
        { position := none, cache := cache, requestMade := false }) ∧
    (jsTrim address ≠ "" →
      jsMapGet cache (jsToLower (jsTrim address)) = none →
      ((∀ pos rest, oracle address = .ok (some pos :: rest) →
          geocodeAddress cache address oracle =
            { position := some pos
              cache := jsMapSet cache (jsToLower (jsTrim address)) (some pos)
              requestMade := true }) ∧
       (∀ rest, oracle address = .ok (none :: rest) →
          geocodeAddress cache address oracle =
            { position := none
              cache := jsMapSet cache (jsToLower (jsTrim address)) none
              requestMade := true }) ∧
       (oracle address = .ok [] →
          geocodeAddress cache address oracle =
            { position := none
              cache := jsMapSet cache (jsToLower (jsTrim address)) none
              requestMade := true }) ∧
       (oracle address = .failure →
          geocodeAddress cache address oracle =
            { position := none
              cache := jsMapSet cache (jsToLower (jsTrim address)) none
              requestMade := true }) ∧
       (oracle address = .aborted →
          geocodeAddress cache address oracle =
            { position := none, cache := cache, requestMade := true }))) := by
  constructor
  · intro h
    unfold geocodeAddress
    rw [if_pos]
    simp [h]
  · intro h hmiss
    have hne : address ≠ "" := by
      intro c
      exact h (by rw [c]; rfl)
    have hcond : (address == "" || jsTrim address == "") = false := by
      simp [hne, h]
    refine ⟨?_, ?_, ?_, ?_, ?_⟩ <;> intros <;>
      simp_all [geocodeAddress, hcond, hmiss]

/-- Witness for C7: concrete runs through the success, the cached-NotFound
and the cancelled branches. -/
theorem claim_C7_witness :
    geocodeAddress [] " A" (fun _ => .ok [some ((1 : ℚ), (2 : ℚ))]) =
      { position := some (1, 2), cache := [("a", some (1, 2))],
        requestMade := true } ∧
    geocodeAddress [] " A" (fun _ => .failure) =
      { position := none, cache := [("a", none)], requestMade := true } ∧
    geocodeAddress [] " A" (fun _ => .aborted) =
      { position := none, cache := [], requestMade := true } ∧
    geocodeAddress [("x", none)] "  " (fun _ => .ok [some (1, 2)]) =
      { position := none, cache := [("x", none)], requestMade := false } := by
  refine ⟨?_, ?_, ?_, ?_⟩
  · have h := ((claim_C7 [] " A" (fun _ => .ok [some (1, 2)])).2
      (by decide) rfl).1 (1, 2) [] rfl
    exact h.trans (by decide)
  · have h := (claim_C7 [] " A" (fun _ => .failure)).2 (by decide) rfl
    exact (h.2.2.2.1 rfl).trans (by decide)
  · have h := (claim_C7 [] " A" (fun _ => .aborted)).2 (by decide) rfl
    exact h.2.2.2.2 rfl
  · exact (claim_C7 [("x", none)] "  " (fun _ => .ok [some (1, 2)])).1 (by decide)

/-- C6.  Cache idempotence of the geocoder: once an address has been resolved
by a lookup that was not cancelled, resolving any address with the same
normalized key (trimmed and lowercased) again hits the session cache — the
second call issues no network request, returns the same value (including a
previously cached NotFound) and leaves the cache unchanged. -/
theorem claim_C6 (cache : GeocodeCache) (address₁ address₂ : String)
    (oracle₁ oracle₂ : String → GeoFetchOutcome)
    (h₁ : jsTrim address₁ ≠ "") (h₂ : jsTrim address₂ ≠ "")
    (hkey : jsToLower (jsTrim address₂) = jsToLower (jsTrim address₁))
    (hnotaborted : oracle₁ address₁ ≠ .aborted) :
    (geocodeAddress (geocodeAddress cache address₁ oracle₁).cache address₂
        oracle₂).requestMade = false ∧
    (geocodeAddress (geocodeAddress cache address₁ oracle₁).cache address₂
        oracle₂).position =
      (geocodeAddress cache address₁ oracle₁).position ∧
    (geocodeAddress (geocodeAddress cache address₁ oracle₁).cache address₂
        oracle₂).cache =
      (geocodeAddress cache address₁ oracle₁).cache := by
  have hne₁ : address₁ ≠ "" := fun c => h₁ (by rw [c]; rfl)
  have hne₂ : address₂ ≠ "" := fun c => h₂ (by rw [c]; rfl)
  have hcond₁ : (address₁ == "" || jsTrim address₁ == "") = false := by
    simp [hne₁, h₁]
  have hcond₂ : (address₂ == "" || jsTrim address₂ == "") = false := by
    simp [hne₂, h₂]
  -- after the first (non-cancelled) call the normalized key is present in
  -- the cache and maps to the returned position
  have hcached :
      jsMapGet (geocodeAddress cache address₁ oracle₁).cache
          (jsToLower (jsTrim address₁)) =
        some (geocodeAddress cache address₁ oracle₁).position := by
    unfold geocodeAddress
    rw [hcond₁]
    simp only [Bool.false_eq_true, if_false]
    cases hlook : jsMapGet cache (jsToLower (jsTrim address₁)) with
    | some v => simpa using hlook
    | none =>
      cases horacle : oracle₁ address₁ with
      | ok results =>
        cases results with
        | nil => simp [jsMapGet_set_self]
        | cons r rest =>
          cases r with
          | some pos => simp [jsMapGet_set_self]
          | none => simp [jsMapGet_set_self]
      | failure => simp [jsMapGet_set_self]
      | aborted => exact absurd horacle hnotaborted
  -- the second call therefore takes the cache-hit branch
  set r₁ := geocodeAddress cache address₁ oracle₁ with hr₁
  have hhit : geocodeAddress r₁.cache address₂ oracle₂ =
      { position := r₁.position, cache := r₁.cache, requestMade := false } := by
    simp only [geocodeAddress, hcond₂, Bool.false_eq_true, if_false, hkey, hcached]
  rw [hhit]
  exact ⟨rfl, rfl, rfl⟩

/-- Witness for C6: resolving " A" then "a " with the same normalized key
issues no second request and returns the cached coordinate even against an
oracle that would now fail. -/
theorem claim_C6_witness :
    (geocodeAddress
        (geocodeAddress [] " A" (fun _ => .ok [some ((1 : ℚ), (2 : ℚ))])).cache
        "a " (fun _ => .failure)).requestMade = false ∧
    (geocodeAddress
        (geocodeAddress [] " A" (fun _ => .ok [some ((1 : ℚ), (2 : ℚ))])).cache
        "a " (fun _ => .failure)).position = some (1, 2) := by
  have h := claim_C6 [] " A" "a " (fun _ => .ok [some ((1 : ℚ), (2 : ℚ))])
    (fun _ => .failure) (by decide) (by decide) (by decide) (by decide)
  exact ⟨h.1, h.2.1.trans (by decide)⟩

/-- `jsTrim` of the empty string is empty (used to convert JS truthiness
conjunctions into the single non-blank-after-trimming condition). -/
theorem jsTrim_empty : jsTrim "" = "" := rfl

/-- C1.  The resolved display address of an appointment is its own trimmed
`location` field whenever that is non-blank after trimming; only when it is
blank does resolution delegate to the regarding entity, where `contact` and
`account` are fetched directly, `opportunity` goes through its customer
preferring the account's address over the contact's, and an unrecognized
entity type, missing identifier, or lookup failure yields `none`.  The
functions are total, so no case raises an exception. -/
theorem claim_C1 (o : CrmOracle) (appt : AppointmentRecord) (ref : EntityReference) :
    (∀ l, appt.location = some l → jsTrim l ≠ "" →
      resolveAppointmentAddress o appt = some (jsTrim l)) ∧
    ((∀ l, appt.location = some l → jsTrim l = "") →
      (appt.regardingobjectid = none → resolveAppointmentAddress o appt = none) ∧
      (∀ r, appt.regardingobjectid = some r →
        resolveAppointmentAddress o appt =
          (match fetchRegardingAddress o r with
           | some a => if jsTrim a = "" then none else some (jsTrim a)
           | none => none))) ∧
    (idTruthy ref.id = false → fetchRegardingAddress o ref = none) ∧
    (ref.etn = "" → fetchRegardingAddress o ref = none) ∧
    (∀ rid, ref.id = some rid → entityIdOf rid = none →
      fetchRegardingAddress o ref = none) ∧
    (jsToLower ref.etn ≠ "contact" → jsToLower ref.etn ≠ "account" →
      jsToLower ref.etn ≠ "opportunity" → fetchRegardingAddress o ref = none) ∧
    (∀ rid eid, ref.id = some rid → entityIdOf rid = some eid →
      idTruthy ref.id = true → ref.etn ≠ "" →
      ((jsToLower ref.etn = "contact" ∨ jsToLower ref.etn = "account") →
        fetchRegardingAddress o ref =
          (match o.retrieveComposite (jsToLower ref.etn) eid with
           | .ok a => a
           | .error _ => none)) ∧
      (jsToLower ref.etn = "opportunity" →
        (∀ a c, o.retrieveOpportunity eid = .ok (some a, c) → a ≠ "" →
          fetchRegardingAddress o ref = some a) ∧
        (∀ c, o.retrieveOpportunity eid = .ok (none, some c) → c ≠ "" →
          fetchRegardingAddress o ref = some c) ∧
        (∀ c, o.retrieveOpportunity eid = .ok (some "", some c) → c ≠ "" →
          fetchRegardingAddress o ref = some c) ∧
        (o.retrieveOpportunity eid = .ok (none, none) →
          fetchRegardingAddress o ref = none) ∧
        (o.retrieveOpportunity eid = .ok (some "", none) →
          fetchRegardingAddress o ref = none) ∧
        (∀ e, o.retrieveOpportunity eid = .error e →
          fetchRegardingAddress o ref = none))) := by
  refine ⟨?_, ?_, ?_, ?_, ?_, ?_, ?_⟩
  · intro l hl htrim
    have hlne : l ≠ "" := fun c => htrim (by rw [c]; exact jsTrim_empty)
    unfold resolveAppointmentAddress
    rw [hl]
    simp [hlne, htrim]
  · intro hblank
    constructor
    · intro hnone
      unfold resolveAppointmentAddress resolveAppointmentAddress.resolveFromRegarding
      cases hl : appt.location with
      | none => rw [hnone]
      | some l => simp [hblank l hl, hnone]
    · intro r hr
      have hfall : resolveAppointmentAddress.resolveFromRegarding o appt =
          (match fetchRegardingAddress o r with
           | some a => if jsTrim a = "" then none else some (jsTrim a)
           | none => none) := by
        unfold resolveAppointmentAddress.resolveFromRegarding
        rw [hr]
        cases hf : fetchRegardingAddress o r with
        | none => simp [hf]
        | some a =>
          by_cases ha : jsTrim a = ""
          · simp [hf, ha]
          · have hane : a ≠ "" := fun c => ha (by rw [c]; exact jsTrim_empty)
            simp [hf, ha, hane]
      unfold resolveAppointmentAddress
      cases hl : appt.location with
      | none => exact hfall
      | some l => simpa [hblank l hl] using hfall
  · intro h
    unfold fetchRegardingAddress
    simp [h]
  · intro h
    unfold fetchRegardingAddress
    simp [h]
  · intro rid hrid hnone
    unfold fetchRegardingAddress
    rw [hrid]
    simp [hnone]
  · intro h1 h2 h3
    unfold fetchRegardingAddress
    by_cases ht : (!idTruthy ref.id || ref.etn == "") = true
    · rw [if_pos ht]
    · rw [if_neg ht]
      cases hid : ref.id with
      | none => simp
      | some rid =>
        cases he : entityIdOf rid with
        | none => simp [he]
        | some eid => simp [he, h1, h2, h3]
  · intro rid eid hrid heid htruthy hetn
    have hcond : (!idTruthy ref.id || ref.etn == "") = false := by
      simp [htruthy, hetn]
    constructor
    · intro hca
      unfold fetchRegardingAddress
      rw [hcond]
      simp only [Bool.false_eq_true, if_false, hrid, heid]
      rcases hca with h | h <;> simp [h]
    · intro hopp
      have hnotc : (jsToLower ref.etn == "contact" || jsToLower ref.etn == "account") = false := by
        simp [hopp]
      refine ⟨?_, ?_, ?_, ?_, ?_, ?_⟩
      · intro a c hr ha
        unfold fetchRegardingAddress
        rw [hcond]
        simp only [Bool.false_eq_true, if_false, hrid, heid]
        rw [hnotc]
        simp [hopp, hr, ha]
      · intro c hr hc
        unfold fetchRegardingAddress
        rw [hcond]
        simp only [Bool.false_eq_true, if_false, hrid, heid]
        rw [hnotc]
        simp [hopp, hr, hc]
      · intro c hr hc
        unfold fetchRegardingAddress
        rw [hcond]
        simp only [Bool.false_eq_true, if_false, hrid, heid]
        rw [hnotc]
        simp [hopp, hr, hc]
      · intro hr
        unfold fetchRegardingAddress
        rw [hcond]
        simp only [Bool.false_eq_true, if_false, hrid, heid]
        rw [hnotc]
        simp [hopp, hr]
      · intro hr
        unfold fetchRegardingAddress
        rw [hcond]
        simp only [Bool.false_eq_true, if_false, hrid, heid]
        rw [hnotc]
        simp [hopp, hr]
      · intro e hr
        unfold fetchRegardingAddress
        rw [hcond]
        simp only [Bool.false_eq_true, if_false, hrid, heid]
        rw [hnotc]
        simp [hopp, hr]

/-- Witness for C1: a non-blank location wins over the regarding entity; a
blank location delegates to a contact lookup; an unrecognized entity type
yields `none`; an opportunity prefers the account's address. -/
theorem claim_C1_witness :
    resolveAppointmentAddress
        { retrieveComposite := fun _ _ => .ok (some " 1 Main St ")
          retrieveOpportunity := fun _ => .ok (some "Acct Addr", some "Cont Addr") }
        { id := "a1", subject := "s", scheduledstart := 0, scheduledend := 0,
          location := some " Loc 1 "
          regardingobjectid := some { etn := "Contact", id := some (.str "c1") } } =
      some "Loc 1" ∧
    resolveAppointmentAddress
        { retrieveComposite := fun _ _ => .ok (some " 1 Main St ")
          retrieveOpportunity := fun _ => .ok (some "Acct Addr", some "Cont Addr") }
        { id := "a2", subject := "s", scheduledstart := 0, scheduledend := 0,
          location := some "  "
          regardingobjectid := some { etn := "Contact", id := some (.str "c1") } } =
      some "1 Main St" ∧
    fetchRegardingAddress
        { retrieveComposite := fun _ _ => .ok (some " 1 Main St ")
          retrieveOpportunity := fun _ => .ok (some "Acct Addr", some "Cont Addr") }
        { etn := "lead", id := some (.str "l1") } = none ∧
    fetchRegardingAddress
        { retrieveComposite := fun _ _ => .ok (some " 1 Main St ")
          retrieveOpportunity := fun _ => .ok (some "Acct Addr", some "Cont Addr") }
        { etn := "Opportunity", id := some (.str "o1") } = some "Acct Addr" := by
  refine ⟨?_, ?_, ?_, ?_⟩
  · have h := (claim_C1
      { retrieveComposite := fun _ _ => .ok (some " 1 Main St ")
        retrieveOpportunity := fun _ => .ok (some "Acct Addr", some "Cont Addr") }
      { id := "a1", subject := "s", scheduledstart := 0, scheduledend := 0,
        location := some " Loc 1 "
        regardingobjectid := some { etn := "Contact", id := some (.str "c1") } }
      { etn := "lead", id := none }).1 " Loc 1 " rfl (by decide)
    exact h.trans (by decide)
  · have h := ((claim_C1
      { retrieveComposite := fun _ _ => .ok (some " 1 Main St ")
        retrieveOpportunity := fun _ => .ok (some "Acct Addr", some "Cont Addr") }
      { id := "a2", subject := "s", scheduledstart := 0, scheduledend := 0,
        location := some "  "
        regardingobjectid := some { etn := "Contact", id := some (.str "c1") } }
      { etn := "lead", id := none }).2.1
        (by intro l hl; cases hl; decide)).2
        { etn := "Contact", id := some (.str "c1") } rfl
    exact h.trans (by decide)
  · exact (claim_C1
      { retrieveComposite := fun _ _ => .ok (some " 1 Main St ")
        retrieveOpportunity := fun _ => .ok (some "Acct Addr", some "Cont Addr") }
      { id := "a2", subject := "s", scheduledstart := 0, scheduledend := 0,
        location := none, regardingobjectid := none }
      { etn := "lead", id := some (.str "l1") }).2.2.2.2.2.1
      (by decide) (by decide) (by decide)
  · exact (((claim_C1
      { retrieveComposite := fun _ _ => .ok (some " 1 Main St ")
        retrieveOpportunity := fun _ => .ok (some "Acct Addr", some "Cont Addr") }
      { id := "a2", subject := "s", scheduledstart := 0, scheduledend := 0,
        location := none, regardingobjectid := none }
      { etn := "Opportunity", id := some (.str "o1") }).2.2.2.2.2.2
      (.str "o1") "o1" rfl rfl (by decide) (by decide)).2 (by decide)).1
      "Acct Addr" (some "Cont Addr") rfl (by decide)

/-- C2.  The component-level route cache key `getCacheKey` is a deterministic
serialization of the start coordinate plus the ordered list of filtered stop
coordinates (it depends on nothing else), and `calculateAndDisplayRoute`
returns a cached entry younger than `ROUTE_CACHE_DURATION` (5 minutes) as-is
— without invoking the route service or the directions endpoint, and leaving
all cache state unchanged — while an entry aged 5 minutes or more is treated
as a miss: the route service is invoked. -/
theorem claim_C2 (now : ℤ) (st : RoutePassState) (startPosition : Position)
    (routePoints : List RoutePoint) (api : List Position → RouteApiOutcome) :
    (∀ pts pts' : List RoutePoint,
      pts.map (·.position) = pts'.map (·.position) →
      getCacheKey startPosition pts = getCacheKey startPosition pts') ∧
    (filterRoutePoints startPosition routePoints ≠ [] →
      ∀ result ts,
        jsMapGet st.routeCache
            (getCacheKey startPosition (filterRoutePoints startPosition routePoints)) =
          some (result, ts) →
        (now - ts < ROUTE_CACHE_DURATION →
          calculateAndDisplayRoute now st startPosition routePoints api =
            { routeData := some result, state := st, serviceInvoked := false,
              apiRequested := false }) ∧
        (ROUTE_CACHE_DURATION ≤ now - ts →
          (calculateAndDisplayRoute now st startPosition routePoints api).serviceInvoked
            = true)) := by
  constructor
  · intro pts pts' h
    have hm : pts.map (fun p => jsonPos p.position) = pts'.map (fun p => jsonPos p.position) := by
      rw [show (fun p : RoutePoint => jsonPos p.position) =
          jsonPos ∘ (fun p : RoutePoint => p.position) from rfl,
        ← List.map_map, ← List.map_map, h]
    unfold getCacheKey
    rw [hm]
  · intro hne result ts hget
    have hnemp : (filterRoutePoints startPosition routePoints).isEmpty = false := by
      simpa [List.isEmpty_iff] using hne
    constructor
    · intro hlt
      simp only [calculateAndDisplayRoute, hnemp, Bool.false_eq_true, if_false,
        hget, if_pos hlt]
    · intro hge
      simp only [calculateAndDisplayRoute, hnemp, Bool.false_eq_true, if_false,
        hget, if_neg (by omega : ¬(now - ts < ROUTE_CACHE_DURATION))]
      rcases hres : (calculateChronologicalRoute now st.serviceCache startPosition
          (filterRoutePoints startPosition routePoints) api).result with _ | r
      · simp [hres]
      · cases hc : r.routeCoordinates.isEmpty <;> simp [hres, hc]

/-- Witness for C2: a cached entry 1 second old is returned as-is with no
service call; the same entry 6 minutes later leads to a service invocation. -/
theorem claim_C2_witness :
    calculateAndDisplayRoute 1000
        { routeCache :=
            [(getCacheKey (0, 0)
                [{ position := (1, 1), address := "X", appointmentId := "1",
                   subject := "s", scheduledstart := 0 }],
              { routeCoordinates := [(0, 0), (1, 1)], totalDistance := 5,
                totalDuration := 5, routeLegs := [] }, 0)]
          serviceCache := [] } (0, 0)
        [{ position := (1, 1), address := "X", appointmentId := "1",
           subject := "s", scheduledstart := 0 }] (fun _ => .err) =
      { routeData := some
          { routeCoordinates := [(0, 0), (1, 1)], totalDistance := 5,
            totalDuration := 5, routeLegs := [] }
        state :=
          { routeCache :=
              [(getCacheKey (0, 0)
                  [{ position := (1, 1), address := "X", appointmentId := "1",
                     subject := "s", scheduledstart := 0 }],
                { routeCoordinates := [(0, 0), (1, 1)], totalDistance := 5,
                  totalDuration := 5, routeLegs := [] }, 0)]
            serviceCache := [] }
        serviceInvoked := false, apiRequested := false } ∧
    (calculateAndDisplayRoute 360000
        { routeCache :=
            [(getCacheKey (0, 0)
                [{ position := (1, 1), address := "X", appointmentId := "1",
                   subject := "s", scheduledstart := 0 }],
              { routeCoordinates := [(0, 0), (1, 1)], totalDistance := 5,
                totalDuration := 5, routeLegs := [] }, 0)]
          serviceCache := [] } (0, 0)
        [{ position := (1, 1), address := "X", appointmentId := "1",
           subject := "s", scheduledstart := 0 }] (fun _ => .err)).serviceInvoked
      = true := by
  have hpe : positionsAreEqual ((1 : ℚ), (1 : ℚ)) (0, 0) = false := by
    unfold positionsAreEqual
    rw [decide_eq_false_iff_not]
    norm_num [calculateDistanceSq, DISTANCE_THRESHOLD]
  have hfil : filterRoutePoints (0, 0)
      [{ position := (1, 1), address := "X", appointmentId := "1",
         subject := "s", scheduledstart := 0 }] =
      [{ position := (1, 1), address := "X", appointmentId := "1",
         subject := "s", scheduledstart := 0 }] := by
    unfold filterRoutePoints
    simp only [List.filter_cons, List.filter_nil]
    rw [hpe]
    rfl
  constructor
  · have h := ((claim_C2 1000
      { routeCache :=
          [(getCacheKey (0, 0)
              [{ position := (1, 1), address := "X", appointmentId := "1",
                 subject := "s", scheduledstart := 0 }],
            { routeCoordinates := [(0, 0), (1, 1)], totalDistance := 5,
              totalDuration := 5, routeLegs := [] }, 0)]
        serviceCache := [] } (0, 0)
      [{ position := (1, 1), address := "X", appointmentId := "1",
         subject := "s", scheduledstart := 0 }] (fun _ => .err)).2
      (by rw [hfil]; simp)
      { routeCoordinates := [(0, 0), (1, 1)], totalDistance := 5,
        totalDuration := 5, routeLegs := [] } 0
      (by rw [hfil, jsMapGet_cons, if_pos rfl])).1 (by decide)
    exact h
  · exact ((claim_C2 360000
      { routeCache :=
          [(getCacheKey (0, 0)
              [{ position := (1, 1), address := "X", appointmentId := "1",
                 subject := "s", scheduledstart := 0 }],
            { routeCoordinates := [(0, 0), (1, 1)], totalDistance := 5,
              totalDuration := 5, routeLegs := [] }, 0)]
        serviceCache := [] } (0, 0)
      [{ position := (1, 1), address := "X", appointmentId := "1",
         subject := "s", scheduledstart := 0 }] (fun _ => .err)).2
      (by rw [hfil]; simp)
      { routeCoordinates := [(0, 0), (1, 1)], totalDistance := 5,
        totalDuration := 5, routeLegs := [] } 0
      (by rw [hfil, jsMapGet_cons, if_pos rfl])).2 (by decide)

theorem buildLegsFrom_spec (pts : List RoutePoint) :
    ∀ (legs : List RouteApiLeg) (i : ℕ), 1 ≤ i → i + legs.length ≤ pts.length →
    ∃ L, buildLegsFrom pts i legs = some L ∧ L.length = legs.length ∧
      ∀ j leg, L.get? j = some leg →
        ∃ fp tp apileg, pts.get? (i + j - 1) = some fp ∧
          pts.get? (i + j) = some tp ∧ legs.get? j = some apileg ∧
          leg = { fromLabel := pointLabel fp s!"Stop {i + j}"
                  toLabel := pointLabel tp s!"Stop {i + j + 1}"
                  distance := apileg.summary.lengthInMeters
                  duration := apileg.summary.travelTimeInSeconds
                  summary := formatRouteSummary apileg.summary.lengthInMeters
                    apileg.summary.travelTimeInSeconds } := by
  intro legs
  induction legs with
  | nil =>
    intro i _ _
    exact ⟨[], rfl, rfl, fun j leg h => by simp at h⟩
  | cons apileg rest ih =>
    intro i hi hlen
    simp only [List.length_cons] at hlen
    have hfp : pts.get? (i - 1) = some (pts.get ⟨i - 1, by omega⟩) :=
      List.get?_eq_get (by omega)
    have htp : pts.get? i = some (pts.get ⟨i, by omega⟩) :=
      List.get?_eq_get (by omega)
    obtain ⟨L', hL', hlen', hspec'⟩ := ih (i + 1) (by omega) (by omega)
    refine ⟨{ fromLabel := pointLabel (pts.get ⟨i - 1, by omega⟩) s!"Stop {i}"
              toLabel := pointLabel (pts.get ⟨i, by omega⟩) s!"Stop {i + 1}"
              distance := apileg.summary.lengthInMeters
              duration := apileg.summary.travelTimeInSeconds
              summary := formatRouteSummary apileg.summary.lengthInMeters
                apileg.summary.travelTimeInSeconds } :: L', ?_, ?_, ?_⟩
    · rw [buildLegsFrom]
      rw [hfp, htp, hL']
      rfl
    · simp [hlen']
    · intro j leg hj
      cases j with
      | zero =>
        simp only [List.get?] at hj
        refine ⟨pts.get ⟨i - 1, by omega⟩, pts.get ⟨i, by omega⟩, apileg,
          hfp, htp, rfl, ?_⟩
        injection hj with hj
        rw [← hj]
        rfl
      | succ j' =>
        have hj' : L'.get? j' = some leg := hj
        obtain ⟨fp, tp, al, hfp2, htp2, hal, hleg⟩ := hspec' j' leg hj'
        refine ⟨fp, tp, al, ?_, ?_, hal, ?_⟩
        · rw [show i + (j' + 1) - 1 = i + 1 + j' - 1 from by omega]
          exact hfp2
        · rw [show i + (j' + 1) = i + 1 + j' from by omega]
          exact htp2
        · rw [show i + (j' + 1) = i + 1 + j' from by omega,
            show i + 1 + j' + 1 = i + 1 + j' + 1 from rfl]
          exact hleg

/-- C5.  For a successful route result built from the aggregator's
chronologically sorted stops, the route service's own stable re-sort is the
identity (so legs follow the input stop order with no reordering), leg 0 runs
from the "Your Location" start label to the first stop's label, and every leg
`i ≥ 1` runs from stop `i-1`'s label to stop `i`'s label, where a stop's
label is its subject, else its address, else a positional fallback. -/
theorem claim_C5 (routePoints : List RoutePoint) (legs : List RouteApiLeg)
    (hsorted : routePoints.Sorted (fun a b => a.scheduledstart ≤ b.scheduledstart))
    (hlen : legs.length ≤ routePoints.length) :
    sortPointsChronologically routePoints = routePoints ∧
    ∃ L, buildRouteLegDetails routePoints legs = some L ∧
      L.length = legs.length ∧
      (∀ leg0, L.get? 0 = some leg0 →
        leg0.fromLabel = "Your Location" ∧
        ∃ p0, routePoints.get? 0 = some p0 ∧
          leg0.toLabel = pointLabel p0 "First Appointment") ∧
      (∀ i leg, 1 ≤ i → L.get? i = some leg →
        ∃ fp tp, routePoints.get? (i - 1) = some fp ∧
          routePoints.get? i = some tp ∧
          leg.fromLabel = pointLabel fp s!"Stop {i}" ∧
          leg.toLabel = pointLabel tp s!"Stop {i + 1}") := by
  refine ⟨List.Sorted.insertionSort_eq hsorted, ?_⟩
  cases legs with
  | nil =>
    exact ⟨[], rfl, rfl, fun leg0 h => by simp at h, fun i leg _ h => by simp at h⟩
  | cons leg0 rest =>
    simp only [List.length_cons] at hlen
    have hp0 : routePoints.get? 0 = some (routePoints.get ⟨0, by omega⟩) :=
      List.get?_eq_get (by omega)
    obtain ⟨L', hL', hlen', hspec'⟩ := buildLegsFrom_spec routePoints rest 1
      le_rfl (by omega)
    refine ⟨{ fromLabel := "Your Location"
              toLabel := pointLabel (routePoints.get ⟨0, by omega⟩) "First Appointment"
              distance := leg0.summary.lengthInMeters
              duration := leg0.summary.travelTimeInSeconds
              summary := formatRouteSummary leg0.summary.lengthInMeters
                leg0.summary.travelTimeInSeconds } :: L', ?_, ?_, ?_, ?_⟩
    · rw [buildRouteLegDetails, hp0, hL']
      rfl
    · simp [hlen']
    · intro l0 h0
      injection h0 with h0
      rw [← h0]
      exact ⟨rfl, routePoints.get ⟨0, by omega⟩, hp0, rfl⟩
    · intro i leg hi hj
      cases i with
      | zero => omega
      | succ i' =>
        have hj' : L'.get? i' = some leg := hj
        obtain ⟨fp, tp, al, hfp2, htp2, _, hleg⟩ := hspec' i' leg hj'
        refine ⟨fp, tp, ?_, ?_, ?_, ?_⟩
        · rw [show i' + 1 - 1 = 1 + i' - 1 from by omega]
          exact hfp2
        · rw [show i' + 1 = 1 + i' from by omega]
          exact htp2
        · rw [hleg, show i' + 1 = 1 + i' from by omega]
        · rw [hleg, show i' + 1 + 1 = 1 + i' + 1 from by omega]

/-- Witness for C5 on two chronologically sorted stops and a two-leg
response. -/
theorem claim_C5_witness :
    sortPointsChronologically
        [{ position := (1, 1), address := "Addr1", appointmentId := "1",
           subject := "S1", scheduledstart := 10 },
         { position := (2, 2), address := "Addr2", appointmentId := "2",
           subject := "", scheduledstart := 20 }] =
      [{ position := (1, 1), address := "Addr1", appointmentId := "1",
         subject := "S1", scheduledstart := 10 },
       { position := (2, 2), address := "Addr2", appointmentId := "2",
         subject := "", scheduledstart := 20 }] ∧
    (buildRouteLegDetails
        [{ position := (1, 1), address := "Addr1", appointmentId := "1",
           subject := "S1", scheduledstart := 10 },
         { position := (2, 2), address := "Addr2", appointmentId := "2",
           subject := "", scheduledstart := 20 }]
        [{ summary := { lengthInMeters := 100, travelTimeInSeconds := 60 },
           points := [(1, 1)] },
         { summary := { lengthInMeters := 200, travelTimeInSeconds := 120 },
           points := [(2, 2)] }]).isSome = true := by
  have h := claim_C5
    [{ position := (1, 1), address := "Addr1", appointmentId := "1",
       subject := "S1", scheduledstart := 10 },
     { position := (2, 2), address := "Addr2", appointmentId := "2",
       subject := "", scheduledstart := 20 }]
    [{ summary := { lengthInMeters := 100, travelTimeInSeconds := 60 },
       points := [(1, 1)] },
     { summary := { lengthInMeters := 200, travelTimeInSeconds := 120 },
       points := [(2, 2)] }]
    (by simp [List.Sorted]) (by simp)
  refine ⟨h.1, ?_⟩
  obtain ⟨L, hL, -⟩ := h.2
  rw [hL]
  rfl

/-- Error behaviour of `calculateChronologicalRoute` when every directions
request fails (network error, body without routes, or empty route list):
the call never returns a result from the request path, and its cache is
exactly the cache after `getValidCacheEntry`'s lookup — nothing is written,
and the only possible change is the lazy deletion of an expired entry under
the queried key. -/
theorem chronoRoute_error_behaviour (now : ℤ) (cache : RouteServiceCache)
    (startPosition : Position) (api : List Position → RouteApiOutcome)
    (happi : ∀ ws, api ws = .err ∨ api ws = .ok none ∨ api ws = .ok (some []))
    (pts : List RoutePoint) :
    ((calculateChronologicalRoute now cache startPosition pts api).apiRequested = true →
      (calculateChronologicalRoute now cache startPosition pts api).result = none) ∧
    (calculateChronologicalRoute now cache startPosition pts api).cache =
      (if pts.isEmpty then cache
       else (getValidCacheEntry now cache
          (generateCacheKey startPosition (sortPointsChronologically pts))).2) := by
  cases hemp : pts.isEmpty
  · rcases hv : getValidCacheEntry now cache
        (generateCacheKey startPosition (sortPointsChronologically pts)) with ⟨cached, cache'⟩
    cases cached with
    | some r =>
      constructor
      · intro h
        exact absurd h (by
          simp only [calculateChronologicalRoute, hemp, Bool.false_eq_true,
            if_false, hv]
          simp)
      · simp only [calculateChronologicalRoute, hemp, Bool.false_eq_true,
          if_false, hv]
    | none =>
      rcases happi (startPosition :: (sortPointsChronologically pts).map (·.position))
        with h | h | h <;>
      · constructor
        · intro _
          simp only [calculateChronologicalRoute, hemp, Bool.false_eq_true,
            if_false, hv, h]
        · simp only [calculateChronologicalRoute, hemp, Bool.false_eq_true,
            if_false, hv, h]
  · constructor
    · intro h
      exact absurd h (by simp [calculateChronologicalRoute, hemp])
    · simp [calculateChronologicalRoute, hemp]

/-- C9 (amended).  When the directions service yields a malformed response,
an empty route list, or a network error, the route computation returns `None`
at both levels (the functions are total, so no exception propagates), no
entry is written into either route cache for the failed attempt, and the
component-level route cache is left unchanged; the `AzureMapsRouteService`
cache changes at most by the lazy deletion of an already-expired entry under
the queried key during the pre-request lookup. -/
theorem claim_C9 (now : ℤ) (cache : RouteServiceCache) (st : RoutePassState)
    (startPosition : Position) (api : List Position → RouteApiOutcome)
    (happi : ∀ ws, api ws = .err ∨ api ws = .ok none ∨ api ws = .ok (some [])) :
    (∀ pts, (calculateChronologicalRoute now cache startPosition pts api).apiRequested = true →
      (calculateChronologicalRoute now cache startPosition pts api).result = none) ∧
    (∀ pts, (calculateChronologicalRoute now cache startPosition pts api).cache =
      (if pts.isEmpty then cache
       else (getValidCacheEntry now cache
          (generateCacheKey startPosition (sortPointsChronologically pts))).2)) ∧
    (∀ pts, (calculateAndDisplayRoute now st startPosition pts api).apiRequested = true →
      (calculateAndDisplayRoute now st startPosition pts api).routeData = none ∧
      (calculateAndDisplayRoute now st startPosition pts api).state.routeCache =
        st.routeCache) := by
  refine ⟨fun pts => (chronoRoute_error_behaviour now cache startPosition api happi pts).1,
    fun pts => (chronoRoute_error_behaviour now cache startPosition api happi pts).2,
    fun pts => ?_⟩
  intro h
  cases hemp : (filterRoutePoints startPosition pts).isEmpty
  · cases hhit : jsMapGet st.routeCache
        (getCacheKey startPosition (filterRoutePoints startPosition pts)) with
    | some e =>
      rcases e with ⟨result, ts⟩
      by_cases hfresh : now - ts < ROUTE_CACHE_DURATION
      · exact absurd h (by
          simp only [calculateAndDisplayRoute, hemp, Bool.false_eq_true,
            if_false, hhit, if_pos hfresh]
          simp)
      · rcases hres : (calculateChronologicalRoute now st.serviceCache startPosition
            (filterRoutePoints startPosition pts) api).result with _ | r
        · constructor <;>
            simp only [calculateAndDisplayRoute, hemp, Bool.false_eq_true,
              if_false, hhit, if_neg hfresh, hres]
        · have hreq : (calculateChronologicalRoute now st.serviceCache startPosition
              (filterRoutePoints startPosition pts) api).apiRequested = true := by
            have := h
            simp only [calculateAndDisplayRoute, hemp, Bool.false_eq_true,
              if_false, hhit, if_neg hfresh, hres] at this
            cases hc : r.routeCoordinates.isEmpty <;> rw [hc] at this <;> simpa using this
          have := (chronoRoute_error_behaviour now st.serviceCache startPosition
            api happi (filterRoutePoints startPosition pts)).1 hreq
          rw [hres] at this
          exact absurd this (by simp)
    | none =>
      rcases hres : (calculateChronologicalRoute now st.serviceCache startPosition
          (filterRoutePoints startPosition pts) api).result with _ | r
      · constructor <;>
          simp only [calculateAndDisplayRoute, hemp, Bool.false_eq_true,
            if_false, hhit, hres]
      · have hreq : (calculateChronologicalRoute now st.serviceCache startPosition
            (filterRoutePoints startPosition pts) api).apiRequested = true := by
          have := h
          simp only [calculateAndDisplayRoute, hemp, Bool.false_eq_true,
            if_false, hhit, hres] at this
          cases hc : r.routeCoordinates.isEmpty <;> rw [hc] at this <;> simpa using this
        have := (chronoRoute_error_behaviour now st.serviceCache startPosition
          api happi (filterRoutePoints startPosition pts)).1 hreq
        rw [hres] at this
        exact absurd this (by simp)
  · exact absurd h (by simp [calculateAndDisplayRoute, hemp])

/-- `getValidCacheEntry` deletes an expired head entry and reports a miss. -/
theorem getValidCacheEntry_head_expired (now : ℤ) (k : String) (r : RouteResult)
    (ts : ℤ) (rest : RouteServiceCache) (h : now - ts > cacheTTL) :
    getValidCacheEntry now ((k, r, ts) :: rest) k = (none, rest) := by
  unfold getValidCacheEntry
  simp [jsMapGet_cons, h, jsMapDelete]

/-- Counterexample to C9 as stated: a `calculateChronologicalRoute` call in
which the directions service yields a network error does return `None`, but
the route cache is NOT left unchanged — the lookup deletes the already
expired entry under the queried key (RouteService.ts, `getValidCacheEntry`,
`this.cache.delete(key)`). -/
theorem claim_C9_cex :
    (calculateChronologicalRoute 300001
        [(generateCacheKey (0, 0)
            [{ position := (1, 1), address := "X", appointmentId := "1",
               subject := "s", scheduledstart := 0 }],
          { routeCoordinates := [], totalDistance := 0, totalDuration := 0,
            routeLegs := [] }, 0)] (0, 0)
        [{ position := (1, 1), address := "X", appointmentId := "1",
           subject := "s", scheduledstart := 0 }] (fun _ => .err)).result = none ∧
    (calculateChronologicalRoute 300001
        [(generateCacheKey (0, 0)
            [{ position := (1, 1), address := "X", appointmentId := "1",
               subject := "s", scheduledstart := 0 }],
          { routeCoordinates := [], totalDistance := 0, totalDuration := 0,
            routeLegs := [] }, 0)] (0, 0)
        [{ position := (1, 1), address := "X", appointmentId := "1",
           subject := "s", scheduledstart := 0 }] (fun _ => .err)).cache ≠
      [(generateCacheKey (0, 0)
          [{ position := (1, 1), address := "X", appointmentId := "1",
             subject := "s", scheduledstart := 0 }],
        { routeCoordinates := [], totalDistance := 0, totalDuration := 0,
          routeLegs := [] }, 0)] := by
  have hs : sortPointsChronologically
      [{ position := (1, 1), address := "X", appointmentId := "1",
         subject := "s", scheduledstart := 0 }] =
      [{ position := (1, 1), address := "X", appointmentId := "1",
         subject := "s", scheduledstart := 0 }] := rfl
  have hv : getValidCacheEntry 300001
      [(generateCacheKey (0, 0)
          [{ position := (1, 1), address := "X", appointmentId := "1",
             subject := "s", scheduledstart := 0 }],
        { routeCoordinates := [], totalDistance := 0, totalDuration := 0,
          routeLegs := [] }, 0)]
      (generateCacheKey (0, 0)
          [{ position := (1, 1), address := "X", appointmentId := "1",
             subject := "s", scheduledstart := 0 }]) =
      (none, []) :=
    getValidCacheEntry_head_expired 300001 _ _ 0 [] (by norm_num [cacheTTL])
  constructor
  · simp only [calculateChronologicalRoute, hs, hv]
    rfl
  · simp only [calculateChronologicalRoute, hs, hv]
    simp

/-- Witness for the amended C9 at a concrete input: with a failing service,
the same expired-entry state returns `None` and the component-level cache is
untouched. -/
theorem claim_C9_witness :
    (∀ pts, (calculateChronologicalRoute 0 [] ((0 : ℚ), (0 : ℚ)) pts
        (fun _ => .err)).apiRequested = true →
      (calculateChronologicalRoute 0 [] ((0 : ℚ), (0 : ℚ)) pts
        (fun _ => .err)).result = none) ∧
    (∀ pts, (calculateAndDisplayRoute 0 { routeCache := [], serviceCache := [] }
        ((0 : ℚ), (0 : ℚ)) pts (fun _ => .err)).apiRequested = true →
      (calculateAndDisplayRoute 0 { routeCache := [], serviceCache := [] }
        ((0 : ℚ), (0 : ℚ)) pts (fun _ => .err)).routeData = none ∧
      (calculateAndDisplayRoute 0 { routeCache := [], serviceCache := [] }
        ((0 : ℚ), (0 : ℚ)) pts (fun _ => .err)).state.routeCache = []) := by
  have h := claim_C9 0 [] { routeCache := [], serviceCache := [] } (0, 0)
    (fun _ => .err) (fun _ => Or.inl rfl)
  exact ⟨h.1, h.2.2⟩

/-- The partition of the address list into successive slices of `batchSize`,
as produced by the `for` loop of `batchGeocodeAddresses`. -/
def chunksOf : List String → List (List String)
  | [] => []
  | a₀ :: more =>
    ((a₀ :: more).take batchSize) :: chunksOf ((a₀ :: more).drop batchSize)
  termination_by l => l.length
  decreasing_by
    simp only [List.length_drop, batchSize, List.length_cons]
    omega

/-- The event trace of processing the given batches in order: every batch but
the last is followed by the inter-batch delay, and the last is also followed
by a delay when `more` (further addresses remained unprocessed after it). -/
def delayedTrace : List (List String) → Bool → List BatchEvent
  | [], _ => []
  | [c], more => if more then [.batch c, .delay delayMs] else [.batch c]
  | c :: c' :: cs, more => .batch c :: .delay delayMs :: delayedTrace (c' :: cs) more

/-- Keys present after `processBatch`: exactly the previous keys plus the
batch's addresses. -/
theorem processBatch_results (oracle : String → GeoFetchOutcome) :
    ∀ (batch : List String) (cache : GeocodeCache)
      (acc : List (String × Option Position)) (a : String),
      (jsMapGet (processBatch cache oracle batch acc).1 a).isSome = true ↔
        ((jsMapGet acc a).isSome = true ∨ a ∈ batch) := by
  intro batch
  induction batch with
  | nil => simp [processBatch]
  | cons address rest ih =>
    intro cache acc a
    rw [processBatch]
    rw [ih]
    by_cases ha : a = address
    · subst ha
      simp [jsMapGet_set_self]
    · rw [jsMapGet_set_ne _ _ _ _ ha]
      simp [ha]

theorem delayedTrace_cons (c : List String) (cs : List (List String)) (more : Bool)
    (h : cs = [] → more = true) :
    delayedTrace (c :: cs) more =
      .batch c :: .delay delayMs :: delayedTrace cs more := by
  cases cs with
  | nil => rw [h rfl]; rfl
  | cons c' cs' => rfl

theorem batchLoop_spec_aux (oracle : String → GeoFetchOutcome) (K : ℕ) :
    ∀ (n : ℕ) (remaining : List String), remaining.length ≤ n →
    ∀ (k₀ : ℕ) (cache : GeocodeCache) (acc : List (String × Option Position)),
      (batchLoop oracle (fun j => decide (K ≤ j)) k₀ cache acc remaining).trace =
        delayedTrace ((chunksOf remaining).take (K - k₀))
          (decide (K - k₀ < (chunksOf remaining).length)) ∧
      ∀ a, (jsMapGet
          (batchLoop oracle (fun j => decide (K ≤ j)) k₀ cache acc remaining).results
            a).isSome = true ↔
        ((jsMapGet acc a).isSome = true ∨
          a ∈ ((chunksOf remaining).take (K - k₀)).flatten) := by
  intro n
  induction n with
  | zero =>
    intro remaining hn k₀ cache acc
    have : remaining = [] := List.length_eq_zero.mp (by omega)
    subst this
    rw [show chunksOf [] = [] from by rw [chunksOf]]
    simp [batchLoop, delayedTrace]
  | succ n IH =>
    intro remaining hn k₀ cache acc
    cases remaining with
    | nil =>
      rw [show chunksOf [] = [] from by rw [chunksOf]]
      simp [batchLoop, delayedTrace]
    | cons a₀ more =>
      by_cases hK : K ≤ k₀
      · rw [batchLoop]
        have hz : K - k₀ = 0 := by omega
        simp [decide_eq_true hK, hz, delayedTrace]
      · have habort : (decide (K ≤ k₀)) = false := decide_eq_false hK
        have hone : 1 ≤ K - k₀ := by omega
        rw [batchLoop, habort]
        rcases hPB : processBatch cache oracle ((a₀ :: more).take batchSize) acc
          with ⟨acc', cache'⟩
        simp only [Bool.false_eq_true, if_false, hPB]
        have hlenrest : ((a₀ :: more).drop batchSize).length ≤ n := by
          have h1 : (a₀ :: more).length ≤ n + 1 := hn
          simp only [List.length_drop, List.length_cons, batchSize] at h1 ⊢
          omega
        obtain ⟨ihT, ihR⟩ := IH ((a₀ :: more).drop batchSize) hlenrest (k₀ + 1)
          cache' acc'
        have hchunks : chunksOf (a₀ :: more) =
            ((a₀ :: more).take batchSize) :: chunksOf ((a₀ :: more).drop batchSize) := by
          rw [chunksOf]
        have htake : (chunksOf (a₀ :: more)).take (K - k₀) =
            ((a₀ :: more).take batchSize) ::
              (chunksOf ((a₀ :: more).drop batchSize)).take (K - (k₀ + 1)) := by
          rw [hchunks, show K - k₀ = (K - (k₀ + 1)) + 1 from by omega]
          rfl
        have hacc' : ∀ a, (jsMapGet acc' a).isSome = true ↔
            ((jsMapGet acc a).isSome = true ∨ a ∈ (a₀ :: more).take batchSize) := by
          intro a
          have := processBatch_results oracle ((a₀ :: more).take batchSize) cache acc a
          rw [hPB] at this
          exact this
        have hlen1 : (chunksOf (a₀ :: more)).length =
            (chunksOf ((a₀ :: more).drop batchSize)).length + 1 := by
          rw [hchunks]
          rfl
        cases hrest : (a₀ :: more).drop batchSize with
        | nil =>
          rw [hrest] at ihT ihR htake hlen1
          rw [show chunksOf [] = [] from by rw [chunksOf]] at htake hlen1
          constructor
          · simp only [List.isEmpty_nil, if_true]
            rw [show (batchLoop oracle (fun j => decide (K ≤ j)) (k₀ + 1) cache'
                acc' []).trace = [] from by rw [batchLoop],
              htake, hlen1, List.take_nil, List.length_nil,
              decide_eq_false (by omega : ¬ (K - k₀ < 0 + 1))]
            rfl
          · intro a
            rw [show (batchLoop oracle (fun j => decide (K ≤ j)) (k₀ + 1) cache'
                acc' []).results = acc' from by rw [batchLoop],
              htake, List.take_nil, hacc' a]
            simp
        | cons r₀ rs =>
          constructor
          · simp only [List.isEmpty_cons, Bool.false_eq_true, if_false]
            rw [← hrest]
            rw [ihT, htake, hlen1]
            rw [delayedTrace_cons _ _ _ ?_]
            · rw [show (decide (K - k₀ < (chunksOf ((a₀ :: more).drop batchSize)).length + 1))
                  = (decide (K - (k₀ + 1) < (chunksOf ((a₀ :: more).drop batchSize)).length))
                from by rw [decide_eq_decide]; omega]
            · intro hnil
              rw [List.take_eq_nil_iff] at hnil
              have hchne : chunksOf ((a₀ :: more).drop batchSize) ≠ [] := by
                rw [hrest, chunksOf]
                simp
              rcases hnil with hnil | hnil
              · rw [decide_eq_true_eq]
                have := List.length_pos.mpr hchne
                omega
              · exact absurd hnil hchne
          · intro a
            rw [hrest] at ihR htake
            rw [ihR a, hacc' a, htake]
            simp only [List.flatten_cons, List.mem_append]
            tauto

theorem batchLoop_spec (oracle : String → GeoFetchOutcome) (K : ℕ)
    (remaining : List String) (k₀ : ℕ) (cache : GeocodeCache)
    (acc : List (String × Option Position)) :
    (batchLoop oracle (fun j => decide (K ≤ j)) k₀ cache acc remaining).trace =
      delayedTrace ((chunksOf remaining).take (K - k₀))
        (decide (K - k₀ < (chunksOf remaining).length)) ∧
    ∀ a, (jsMapGet
        (batchLoop oracle (fun j => decide (K ≤ j)) k₀ cache acc remaining).results
          a).isSome = true ↔
      ((jsMapGet acc a).isSome = true ∨
        a ∈ ((chunksOf remaining).take (K - k₀)).flatten) :=
  batchLoop_spec_aux oracle K remaining.length remaining le_rfl k₀ cache acc

theorem chunksOf_length_aux :
    ∀ (n : ℕ) (l : List String), l.length ≤ n →
      (chunksOf l).length = (l.length + batchSize - 1) / batchSize := by
  intro n
  induction n with
  | zero =>
    intro l hn
    have : l = [] := List.length_eq_zero.mp (by omega)
    subst this
    rw [show chunksOf [] = [] from by rw [chunksOf]]
    decide
  | succ n IH =>
    intro l hn
    cases l with
    | nil =>
      rw [show chunksOf [] = [] from by rw [chunksOf]]
      decide
    | cons a₀ more =>
      rw [chunksOf, List.length_cons,
        IH ((a₀ :: more).drop batchSize) (by
          have h1 : (a₀ :: more).length ≤ n + 1 := hn
          simp only [List.length_drop, List.length_cons, batchSize] at h1 ⊢
          omega)]
      simp only [List.length_drop, List.length_cons, batchSize]
      omega

theorem chunksOf_length (l : List String) :
    (chunksOf l).length = (l.length + batchSize - 1) / batchSize :=
  chunksOf_length_aux l.length l le_rfl

theorem chunksOf_flatten_aux :
    ∀ (n : ℕ) (l : List String), l.length ≤ n → (chunksOf l).flatten = l := by
  intro n
  induction n with
  | zero =>
    intro l hn
    have : l = [] := List.length_eq_zero.mp (by omega)
    subst this
    rw [show chunksOf [] = [] from by rw [chunksOf]]
    rfl
  | succ n IH =>
    intro l hn
    cases l with
    | nil =>
      rw [show chunksOf [] = [] from by rw [chunksOf]]
      rfl
    | cons a₀ more =>
      rw [chunksOf, List.flatten_cons,
        IH ((a₀ :: more).drop batchSize) (by
          have h1 : (a₀ :: more).length ≤ n + 1 := hn
          simp only [List.length_drop, List.length_cons, batchSize] at h1 ⊢
          omega)]
      exact List.take_append_drop _ _

/-- Concatenating the batch slices gives back the address list. -/
theorem chunksOf_flatten (l : List String) : (chunksOf l).flatten = l :=
  chunksOf_flatten_aux l.length l le_rfl

/-- C8.  The batch geocoder issues `⌈N / batchSize⌉` strictly sequential
batches (the successive `batchSize`-slices of the address list, in order)
with the configured `delayMs` delay event between consecutive batches; the
cancellation signal is checked before each batch, and a signal that fires
before batch `K` aborts the run after the first `K` batches, so exactly the
addresses of the first `K` batches are keys of the returned result map and
the addresses of unprocessed batches are absent; with a signal that never
fires, every batch runs and every address is a key. -/
theorem claim_C8 (cache : GeocodeCache) (addresses : List String)
    (oracle : String → GeoFetchOutcome) :
    (chunksOf addresses).length = (addresses.length + batchSize - 1) / batchSize ∧
    (∀ K,
      (batchGeocodeAddresses cache addresses oracle (fun j => decide (K ≤ j))).trace =
        delayedTrace ((chunksOf addresses).take K)
          (decide (K < (chunksOf addresses).length)) ∧
      ∀ a, (jsMapGet (batchGeocodeAddresses cache addresses oracle
          (fun j => decide (K ≤ j))).results a).isSome = true ↔
        a ∈ ((chunksOf addresses).take K).flatten) ∧
    (∀ K, (chunksOf addresses).length ≤ K →
      (batchGeocodeAddresses cache addresses oracle (fun j => decide (K ≤ j))).trace =
        delayedTrace (chunksOf addresses) false ∧
      ∀ a, (jsMapGet (batchGeocodeAddresses cache addresses oracle
          (fun j => decide (K ≤ j))).results a).isSome = true ↔ a ∈ addresses) := by
  have hmain : ∀ K,
      (batchGeocodeAddresses cache addresses oracle (fun j => decide (K ≤ j))).trace =
        delayedTrace ((chunksOf addresses).take K)
          (decide (K < (chunksOf addresses).length)) ∧
      ∀ a, (jsMapGet (batchGeocodeAddresses cache addresses oracle
          (fun j => decide (K ≤ j))).results a).isSome = true ↔
        a ∈ ((chunksOf addresses).take K).flatten := by
    intro K
    obtain ⟨hT, hR⟩ := batchLoop_spec oracle K addresses 0 cache []
    refine ⟨by simpa using hT, fun a => ?_⟩
    have := hR a
    simpa [jsMapGet] using this
  refine ⟨chunksOf_length addresses, hmain, fun K hK => ?_⟩
  obtain ⟨hT, hR⟩ := hmain K
  rw [List.take_of_length_le hK] at hT hR
  refine ⟨?_, fun a => ?_⟩
  · rw [hT, decide_eq_false (by omega : ¬ K < (chunksOf addresses).length)]
  · rw [hR a, chunksOf_flatten]

/-- Witness for C8: two addresses form one batch; a signal firing before
batch 1 still lets the single batch run, and both addresses are keys. -/
theorem claim_C8_witness :
    (batchGeocodeAddresses [] ["a", "b"] (fun _ => .ok [])
        (fun j => decide (1 ≤ j))).trace =
      delayedTrace (chunksOf ["a", "b"]) false ∧
    ((jsMapGet (batchGeocodeAddresses [] ["a", "b"] (fun _ => .ok [])
        (fun j => decide (1 ≤ j))).results "a").isSome = true ↔
      "a" ∈ ["a", "b"]) := by
  have h := (claim_C8 [] ["a", "b"] (fun _ => .ok [])).2.2 1
    (by rw [chunksOf_length]; decide)
  exact ⟨h.1, h.2 "a"⟩

/-! ## Lemmas for the stop aggregation (C3) -/

theorem addToAddressMap_get_self (m : List (String × List AppointmentRecord))
    (k : String) (appt : AppointmentRecord) :
    jsMapGet (addToAddressMap m k appt) k =
      some ((jsMapGet m k).getD [] ++ [appt]) := by
  induction m with
  | nil => simp [addToAddressMap, jsMapGet_cons, jsMapGet_nil]
  | cons e rest ih =>
    rw [addToAddressMap]
    by_cases h : e.1 = k
    · rw [if_pos (by simpa using h), jsMapGet_cons, jsMapGet_cons, if_pos h,
        if_pos h]
      rfl
    · rw [if_neg (by simpa using h), jsMapGet_cons, jsMapGet_cons, if_neg h,
        if_neg h]
      exact ih

theorem addToAddressMap_get_ne (m : List (String × List AppointmentRecord))
    (k k' : String) (appt : AppointmentRecord) (h : k' ≠ k) :
    jsMapGet (addToAddressMap m k appt) k' = jsMapGet m k' := by
  induction m with
  | nil => simp [addToAddressMap, jsMapGet_cons, jsMapGet_nil, Ne.symm h]
  | cons e rest ih =>
    rw [addToAddressMap]
    by_cases he : e.1 = k
    · rw [if_pos (by simpa using he), jsMapGet_cons, jsMapGet_cons, he]
      simp [Ne.symm h]
    · rw [if_neg (by simpa using he), jsMapGet_cons, jsMapGet_cons]
      by_cases hek : e.1 = k'
      · rw [if_pos hek, if_pos hek]
      · rw [if_neg hek, if_neg hek]
        exact ih

/-- The per-address contribution of a result list: the appointments whose
trimmed address is exactly `addr`, in input order. -/
def addrContrib (rs : List (Option (AppointmentRecord × String))) (addr : String) :
    List AppointmentRecord :=
  ((rs.filterMap id).filter (fun x => jsTrim x.2 == addr)).map (·.1)

theorem addrContrib_nil (addr : String) : addrContrib [] addr = [] := rfl

theorem buildAddressMap_go (addr : String) (haddr : addr ≠ "") :
    ∀ (rs : List (Option (AppointmentRecord × String)))
      (m : List (String × List AppointmentRecord)),
      jsMapGet (rs.foldl
        (fun m r =>
          match r with
          | some (appt, address) =>
            if !(address == "") && !(jsTrim address == "") then
              addToAddressMap m (jsTrim address) appt
            else m
          | none => m) m) addr =
      (match jsMapGet m addr with
       | some g => some (g ++ addrContrib rs addr)
       | none =>
         if addrContrib rs addr = [] then none else some (addrContrib rs addr)) := by
  intro rs
  induction rs with
  | nil =>
    intro m
    cases h : jsMapGet m addr <;> simp [h, addrContrib]
  | cons r rs' ih =>
    intro m
    rw [List.foldl_cons]
    cases r with
    | none =>
      rw [ih m]
      have : addrContrib (none :: rs') addr = addrContrib rs' addr := by
        simp [addrContrib]
      rw [this]
    | some pr =>
      rcases pr with ⟨appt, address⟩
      by_cases hcond : (!(address == "") && !(jsTrim address == "")) = true
      · simp only [hcond, if_true]
        by_cases hk : jsTrim address = addr
        · have hcontrib : addrContrib (some (appt, address) :: rs') addr =
              appt :: addrContrib rs' addr := by
            simp [addrContrib, hk]
          rw [ih (addToAddressMap m (jsTrim address) appt), hcontrib, hk,
            addToAddressMap_get_self]
          cases hm : jsMapGet m addr with
          | none => simp
          | some g => simp
        · have hcontrib : addrContrib (some (appt, address) :: rs') addr =
              addrContrib rs' addr := by
            simp only [addrContrib, List.filterMap_cons, Option.mem_def, id]
            rw [List.filter_cons]
            simp [hk]
          rw [ih (addToAddressMap m (jsTrim address) appt), hcontrib,
            addToAddressMap_get_ne _ _ _ _ (fun c => hk c.symm)]
      · simp only [hcond, Bool.false_eq_true, if_false]
        rw [ih m]
        have : addrContrib (some (appt, address) :: rs') addr =
            addrContrib rs' addr := by
          simp only [Bool.and_eq_true, Bool.not_eq_eq_eq_not, Bool.not_true,
            beq_eq_false_iff_ne] at hcond
          simp only [addrContrib, List.filterMap_cons, id]
          rw [List.filter_cons]
          have : (jsTrim address == addr) = false := by
            by_cases hblank : address = ""
            · subst hblank
              simp [jsTrim_empty, Ne.symm haddr]
            · have : jsTrim address = "" := by tauto
              simp [this, Ne.symm haddr]
          simp [this]
        rw [this]

/-- Lookup in the finished address map: a non-blank address maps to exactly
the appointments that resolved to it, in input order, and only when there is
at least one such appointment. -/
theorem buildAddressMap_get (addressResults : List (Option (AppointmentRecord × String)))
    (addr : String) (haddr : addr ≠ "") :
    jsMapGet (buildAddressMap addressResults) addr =
      (if addrContrib addressResults addr = [] then none
       else some (addrContrib addressResults addr)) := by
  unfold buildAddressMap
  rw [buildAddressMap_go addr haddr addressResults []]
  rfl

theorem addToAddressMap_keys (m : List (String × List AppointmentRecord))
    (k : String) (a : AppointmentRecord) :
    (addToAddressMap m k a).map (·.1) =
      if k ∈ m.map (·.1) then m.map (·.1) else m.map (·.1) ++ [k] := by
  induction m with
  | nil => simp [addToAddressMap]
  | cons e rest ih =>
    rw [addToAddressMap]
    by_cases h : e.1 = k
    · rw [if_pos (by simpa using h)]
      simp [h]
    · rw [if_neg (by simpa using h)]
      simp only [List.map_cons, ih, List.mem_cons]
      by_cases hk : k ∈ rest.map (·.1)
      · simp [hk]
      · simp only [hk, or_false, false_or, if_false]
        rw [if_neg (fun c : k = e.1 => h c.symm)]
        simp

theorem buildAddressMap_keys_invariant :
    ∀ (rs : List (Option (AppointmentRecord × String)))
      (m : List (String × List AppointmentRecord)),
      (m.map (·.1)).Nodup → (∀ k ∈ m.map (·.1), k ≠ "") →
      ((rs.foldl
        (fun m r =>
          match r with
          | some (appt, address) =>
            if !(address == "") && !(jsTrim address == "") then
              addToAddressMap m (jsTrim address) appt
            else m
          | none => m) m).map (·.1)).Nodup ∧
      (∀ k ∈ (rs.foldl
        (fun m r =>
          match r with
          | some (appt, address) =>
            if !(address == "") && !(jsTrim address == "") then
              addToAddressMap m (jsTrim address) appt
            else m
          | none => m) m).map (·.1), k ≠ "") := by
  intro rs
  induction rs with
  | nil => intro m h1 h2; exact ⟨h1, h2⟩
  | cons r rs' ih =>
    intro m h1 h2
    rw [List.foldl_cons]
    cases r with
    | none => exact ih m h1 h2
    | some pr =>
      rcases pr with ⟨appt, address⟩
      by_cases hcond : (!(address == "") && !(jsTrim address == "")) = true
      · simp only [hcond, if_true]
        have htrim : jsTrim address ≠ "" := by
          simp only [Bool.and_eq_true, Bool.not_eq_eq_eq_not, Bool.not_true,
            beq_eq_false_iff_ne] at hcond
          exact hcond.2
        refine ih _ ?_ ?_
        · rw [addToAddressMap_keys]
          by_cases hk : jsTrim address ∈ m.map (·.1)
          · rw [if_pos hk]; exact h1
          · rw [if_neg hk]
            simp [List.nodup_append, h1, hk]
        · rw [addToAddressMap_keys]
          by_cases hk : jsTrim address ∈ m.map (·.1)
          · rw [if_pos hk]; exact h2
          · rw [if_neg hk]
            intro k hkmem
            rcases List.mem_append.mp hkmem with h | h
            · exact h2 k h
            · simp only [List.mem_singleton] at h
              rw [h]; exact htrim
      · simp only [hcond, Bool.false_eq_true, if_false]
        exact ih m h1 h2

theorem buildAddressMap_keys (res : List (Option (AppointmentRecord × String))) :
    (((buildAddressMap res).map (·.1)).Nodup) ∧
    (∀ k ∈ (buildAddressMap res).map (·.1), k ≠ "") :=
  buildAddressMap_keys_invariant res [] (by simp) (by simp)

theorem jsMapGet_isSome_mem_keys {α : Type} (m : List (String × α)) (k : String) :
    (jsMapGet m k).isSome = true ↔ k ∈ m.map (·.1) := by
  induction m with
  | nil => simp [jsMapGet_nil]
  | cons e rest ih =>
    rw [jsMapGet_cons]
    by_cases h : e.1 = k
    · simp [h]
    · rw [if_neg h, ih]
      simp only [List.map_cons, List.mem_cons]
      constructor
      · exact Or.inr
      · rintro (hc | hc)
        · exact absurd hc.symm h
        · exact hc

/-- The representative time of every group is the earliest `scheduledstart`
among its appointments, provided the input results preserve a chronologically
sorted appointment order. -/
theorem buildAddressMap_rep (res : List (Option (AppointmentRecord × String)))
    (hsort : (res.filterMap id).Pairwise
      (fun x y => x.1.scheduledstart ≤ y.1.scheduledstart))
    (addr : String) (group : List AppointmentRecord)
    (hget : jsMapGet (buildAddressMap res) addr = some group) :
    ∃ a₀ rest, group = a₀ :: rest ∧
      groupSortKey (buildAddressMap res) addr = a₀.scheduledstart ∧
      ∀ x ∈ group, a₀.scheduledstart ≤ x.scheduledstart := by
  have haddr : addr ≠ "" := by
    refine (buildAddressMap_keys res).2 addr ?_
    rw [← jsMapGet_isSome_mem_keys]
    rw [hget]
    rfl
  have hget' := hget
  rw [buildAddressMap_get res addr haddr] at hget'
  by_cases hc : addrContrib res addr = []
  · rw [if_pos hc] at hget'
    exact absurd hget' (by simp)
  · rw [if_neg hc] at hget'
    have hgroup : group = addrContrib res addr := by
      injection hget' with h
      exact h.symm
    have hpw : group.Pairwise (fun x y => x.scheduledstart ≤ y.scheduledstart) := by
      rw [hgroup]
      unfold addrContrib
      rw [List.pairwise_map]
      exact hsort.sublist (List.filter_sublist _)
    cases hg : group with
    | nil => exact absurd (hgroup ▸ hg) (Ne.symm (by simpa using hc))
    | cons a₀ rest =>
      refine ⟨a₀, rest, rfl, ?_, ?_⟩
      · unfold groupSortKey addressMapGet
        rw [hget, hg]
      · intro x hx
        rw [hg] at hpw
        rcases List.mem_cons.mp hx with h | h
        · rw [h]
        · exact (List.pairwise_cons.mp hpw).1 x h

/-! ### Stability of the `sortedAddresses` sort -/

theorem pairwise_lex_orderedInsert (f : String → ℤ) (pos : String → ℕ)
    (x : String) :
    ∀ (l : List String),
      (∀ b ∈ l, pos x < pos b) →
      l.Pairwise (fun a b => f a < f b ∨ (f a = f b ∧ pos a < pos b)) →
      l.Pairwise (fun a b => f a ≤ f b) →
      (l.orderedInsert (fun a b => f a ≤ f b) x).Pairwise
        (fun a b => f a < f b ∨ (f a = f b ∧ pos a < pos b)) := by
  intro l
  induction l with
  | nil => intro _ _ _; simp
  | cons y ys ih =>
    intro hx hlex hle
    rw [List.orderedInsert]
    by_cases hxy : f x ≤ f y
    · rw [if_pos hxy]
      refine List.pairwise_cons.mpr ⟨?_, hlex⟩
      intro b hb
      rcases List.mem_cons.mp hb with hb | hb
      · subst hb
        rcases lt_or_eq_of_le hxy with h | h
        · exact Or.inl h
        · exact Or.inr ⟨h, hx _ (List.mem_cons_self _ _)⟩
      · have hyb : f y ≤ f b := (List.pairwise_cons.mp hle).1 b hb
        have hxb : f x ≤ f b := le_trans hxy hyb
        rcases lt_or_eq_of_le hxb with h | h
        · exact Or.inl h
        · exact Or.inr ⟨h, hx b (by simp [hb])⟩
    · rw [if_neg hxy]
      refine List.pairwise_cons.mpr ⟨?_, ?_⟩
      · intro b hb
        rcases (List.mem_orderedInsert _).mp hb with hb | hb
        · subst hb
          exact Or.inl (by omega)
        · exact (List.pairwise_cons.mp hlex).1 b hb
      · exact ih (fun b hb => hx b (by simp [hb]))
          (List.pairwise_cons.mp hlex).2 (List.pairwise_cons.mp hle).2

theorem pairwise_lex_insertionSort (f : String → ℤ) (pos : String → ℕ) :
    ∀ (l : List String),
      l.Pairwise (fun a b => pos a < pos b) →
      (l.insertionSort (fun a b => f a ≤ f b)).Pairwise
        (fun a b => f a < f b ∨ (f a = f b ∧ pos a < pos b)) := by
  intro l
  induction l with
  | nil => intro _; simp
  | cons x xs ih =>
    intro hpos
    rw [List.insertionSort]
    obtain ⟨hx, hxs⟩ := List.pairwise_cons.mp hpos
    haveI : IsTotal String (fun a b => f a ≤ f b) :=
      ⟨fun a b => Int.le_total (f a) (f b)⟩
    haveI : IsTrans String (fun a b => f a ≤ f b) :=
      ⟨fun a b c hab hbc => le_trans hab hbc⟩
    refine pairwise_lex_orderedInsert f pos x _ ?_ (ih hxs) ?_
    · intro b hb
      exact hx b ((List.perm_insertionSort _ _).mem_iff.mp hb)
    · exact List.sorted_insertionSort _ xs

theorem indexOf_pairwise : ∀ (l : List String), l.Nodup →
    l.Pairwise (fun a b => l.indexOf a < l.indexOf b) := by
  intro l
  induction l with
  | nil => intro _; simp
  | cons x xs ih =>
    intro hnd
    obtain ⟨hx, hxs⟩ := List.pairwise_cons.mp hnd
    refine List.pairwise_cons.mpr ⟨?_, ?_⟩
    · intro b hb
      rw [List.indexOf_cons_self,
        List.indexOf_cons_ne xs (by intro c; exact hx b hb c)]
      omega
    · refine (ih hxs).imp_of_mem ?_
      intro a b ha hb hab
      rw [List.indexOf_cons_ne xs (by intro c; exact hx a ha c),
        List.indexOf_cons_ne xs (by intro c; exact hx b hb c)]
      omega

/-- The keep-condition of the `markerCount` loop: the address geocoded
successfully and its group is non-empty. -/
def keepMarker (m : List (String × List AppointmentRecord))
    (geo : String → Option Position) (a : String) : Bool :=
  match geo a, addressMapGet m a with
  | some _, some (_ :: _) => true
  | _, _ => false

theorem markerLoop_spec (m : List (String × List AppointmentRecord))
    (geo : String → Option Position) :
    ∀ (sorted : List String) (count : ℕ),
      ((markerLoop m geo count sorted).1.map (·.markerCount) =
        List.range' (count + 1) (markerLoop m geo count sorted).1.length) ∧
      ((markerLoop m geo count sorted).1.map (·.address) =
        sorted.filter (keepMarker m geo)) ∧
      (∀ mk ∈ (markerLoop m geo count sorted).1,
        addressMapGet m mk.address = some mk.appointments) := by
  intro sorted
  induction sorted with
  | nil => intro count; exact ⟨rfl, rfl, by simp [markerLoop]⟩
  | cons address rest ih =>
    intro count
    rw [markerLoop]
    rcases hg : geo address with _ | pos <;> rcases hm : addressMapGet m address
      with _ | group
    · have hkeep : keepMarker m geo address = false := by
        unfold keepMarker; rw [hg, hm]
      obtain ⟨ih1, ih2, ih3⟩ := ih count
      refine ⟨by simpa using ih1, ?_, by simpa using ih3⟩
      rw [List.filter_cons, hkeep]
      simpa using ih2
    · have hkeep : keepMarker m geo address = false := by
        unfold keepMarker; rw [hg, hm]
      obtain ⟨ih1, ih2, ih3⟩ := ih count
      refine ⟨by simpa using ih1, ?_, by simpa using ih3⟩
      rw [List.filter_cons, hkeep]
      simpa using ih2
    · have hkeep : keepMarker m geo address = false := by
        unfold keepMarker; rw [hg, hm]
      obtain ⟨ih1, ih2, ih3⟩ := ih count
      refine ⟨by simpa using ih1, ?_, by simpa using ih3⟩
      rw [List.filter_cons, hkeep]
      simpa using ih2
    · cases group with
      | nil =>
        have hkeep : keepMarker m geo address = false := by
          unfold keepMarker; rw [hg, hm]
        obtain ⟨ih1, ih2, ih3⟩ := ih count
        refine ⟨by simpa using ih1, ?_, by simpa using ih3⟩
        rw [List.filter_cons, hkeep]
        simpa using ih2
      | cons a₀ appts =>
        have hkeep : keepMarker m geo address = true := by
          unfold keepMarker; rw [hg, hm]
        obtain ⟨ih1, ih2, ih3⟩ := ih (count + 1)
        rcases hml : markerLoop m geo (count + 1) rest with ⟨ms, rps⟩
        rw [hml] at ih1 ih2 ih3
        simp only at ih1 ih2 ih3 ⊢
        refine ⟨?_, ?_, ?_⟩
        · simp only [List.map_cons, List.length_cons, ih1, List.range'_succ]
        · rw [List.filter_cons, hkeep]
          simp only [List.map_cons, ih2, if_true]
        · intro mk hmk
          rcases List.mem_cons.mp hmk with hmk | hmk
          · rw [hmk]
            exact hm
          · exact ih3 mk hmk

/-- C3.  The aggregation pipeline of `updateMarkers`: appointments are
grouped by exact trimmed address string in input order; under the documented
precondition that the appointment list arrives sorted by `scheduledstart`
(index.ts orders the FetchXML by `scheduledstart` ascending), every group's
representative sort key is the earliest `scheduledstart` among its
appointments; the unique addresses are sorted ascending by that key with
ties broken by original first-occurrence order (the stable JS sort); and the
marker loop assigns the sequential 1-based labels `1, 2, …` in exactly that
sorted order to the addresses that survive geocoding. -/
theorem claim_C3 (addressResults : List (Option (AppointmentRecord × String)))
    (geo : String → Option Position)
    (hsort : (addressResults.filterMap id).Pairwise
      (fun x y => x.1.scheduledstart ≤ y.1.scheduledstart)) :
    (∀ addr, addr ≠ "" →
      jsMapGet (buildAddressMap addressResults) addr =
        (if addrContrib addressResults addr = [] then none
         else some (addrContrib addressResults addr))) ∧
    (∀ addr group,
      jsMapGet (buildAddressMap addressResults) addr = some group →
      ∃ a₀ rest, group = a₀ :: rest ∧
        groupSortKey (buildAddressMap addressResults) addr = a₀.scheduledstart ∧
        ∀ x ∈ group, a₀.scheduledstart ≤ x.scheduledstart) ∧
    ((sortedAddresses (buildAddressMap addressResults)).Perm
      ((buildAddressMap addressResults).map (·.1)) ∧
     (sortedAddresses (buildAddressMap addressResults)).Pairwise (fun a b =>
        groupSortKey (buildAddressMap addressResults) a <
          groupSortKey (buildAddressMap addressResults) b ∨
        (groupSortKey (buildAddressMap addressResults) a =
          groupSortKey (buildAddressMap addressResults) b ∧
         ((buildAddressMap addressResults).map (·.1)).indexOf a <
          ((buildAddressMap addressResults).map (·.1)).indexOf b))) ∧
    ((aggregateStops addressResults geo).1.map (·.markerCount) =
      List.range' 1 (aggregateStops addressResults geo).1.length ∧
     (aggregateStops addressResults geo).1.map (·.address) =
      (sortedAddresses (buildAddressMap addressResults)).filter
        (keepMarker (buildAddressMap addressResults) geo) ∧
     ∀ mk ∈ (aggregateStops addressResults geo).1,
       addressMapGet (buildAddressMap addressResults) mk.address =
         some mk.appointments) := by
  refine ⟨fun addr haddr => buildAddressMap_get addressResults addr haddr,
    fun addr group hget => buildAddressMap_rep addressResults hsort addr group hget,
    ⟨List.perm_insertionSort _ _, ?_⟩, ?_, ?_, ?_⟩
  · exact pairwise_lex_insertionSort (groupSortKey (buildAddressMap addressResults))
      (fun a => ((buildAddressMap addressResults).map (·.1)).indexOf a)
      ((buildAddressMap addressResults).map (·.1))
      (indexOf_pairwise _ (buildAddressMap_keys addressResults).1)
  · exact (markerLoop_spec (buildAddressMap addressResults) geo
      (sortedAddresses (buildAddressMap addressResults)) 0).1
  · exact (markerLoop_spec (buildAddressMap addressResults) geo
      (sortedAddresses (buildAddressMap addressResults)) 0).2.1
  · exact (markerLoop_spec (buildAddressMap addressResults) geo
      (sortedAddresses (buildAddressMap addressResults)) 0).2.2

/-- Witness for C3: three appointments at two addresses, one address failing
to geocode; the shared address groups both its appointments, the
representative time is the earliest start, and the surviving address gets
marker label 1. -/
theorem claim_C3_witness :
    jsMapGet (buildAddressMap
        [some ({ id := "1", subject := "s1", scheduledstart := 10,
                 scheduledend := 11, location := some "X",
                 regardingobjectid := none }, "X"),
         some ({ id := "2", subject := "s2", scheduledstart := 20,
                 scheduledend := 21, location := some "Y",
                 regardingobjectid := none }, "Y"),
         some ({ id := "3", subject := "s3", scheduledstart := 30,
                 scheduledend := 31, location := some "X",
                 regardingobjectid := none }, "X")]) "X" =
      some [{ id := "1", subject := "s1", scheduledstart := 10,
              scheduledend := 11, location := some "X",
              regardingobjectid := none },
            { id := "3", subject := "s3", scheduledstart := 30,
              scheduledend := 31, location := some "X",
              regardingobjectid := none }] ∧
    groupSortKey (buildAddressMap
        [some ({ id := "1", subject := "s1", scheduledstart := 10,
                 scheduledend := 11, location := some "X",
                 regardingobjectid := none }, "X"),
         some ({ id := "2", subject := "s2", scheduledstart := 20,
                 scheduledend := 21, location := some "Y",
                 regardingobjectid := none }, "Y"),
         some ({ id := "3", subject := "s3", scheduledstart := 30,
                 scheduledend := 31, location := some "X",
                 regardingobjectid := none }, "X")]) "X" = 10 ∧
    (aggregateStops
        [some ({ id := "1", subject := "s1", scheduledstart := 10,
                 scheduledend := 11, location := some "X",
                 regardingobjectid := none }, "X"),
         some ({ id := "2", subject := "s2", scheduledstart := 20,
                 scheduledend := 21, location := some "Y",
                 regardingobjectid := none }, "Y"),
         some ({ id := "3", subject := "s3", scheduledstart := 30,
                 scheduledend := 31, location := some "X",
                 regardingobjectid := none }, "X")]
        (fun a => if a == "Y" then none else some ((1 : ℚ), (1 : ℚ)))).1.map
      (·.markerCount) = [1] := by
  have h := claim_C3
    [some ({ id := "1", subject := "s1", scheduledstart := 10,
             scheduledend := 11, location := some "X",
             regardingobjectid := none }, "X"),
     some ({ id := "2", subject := "s2", scheduledstart := 20,
             scheduledend := 21, location := some "Y",
             regardingobjectid := none }, "Y"),
     some ({ id := "3", subject := "s3", scheduledstart := 30,
             scheduledend := 31, location := some "X",
             regardingobjectid := none }, "X")]
    (fun a => if a == "Y" then none else some ((1 : ℚ), (1 : ℚ)))
    (by decide)
  refine ⟨(h.1 "X" (by decide)).trans (by decide), ?_, ?_⟩
  · obtain ⟨a₀, rest, hgroup, hkey, -⟩ :=
      h.2.1 "X" _ ((h.1 "X" (by decide)).trans (by decide) :
        _ = some [{ id := "1", subject := "s1", scheduledstart := 10,
                    scheduledend := 11, location := some "X",
                    regardingobjectid := none },
                  { id := "3", subject := "s3", scheduledstart := 30,
                    scheduledend := 31, location := some "X",
                    regardingobjectid := none }])
    rw [hkey]
    have : a₀ = { id := "1", subject := "s1", scheduledstart := 10,
                  scheduledend := 11, location := some "X",
                  regardingobjectid := none } := by
      injection hgroup with h1 h2
      exact h1.symm
    rw [this]
  · rw [h.2.2.2.1]
    decide

end MeetingsMap
